import Mathlib

/-!
# Verification of the embedded agent run orchestrator (`openclaw`)

Shallow embedding of `src/src/agents/pi-embedded-runner/run.ts`
(`runEmbeddedPiAgent` and its helpers `profileCandidates`,
`applyApiKeyInfo`, `advanceAuthProfile`) and of the working-directory
scoping of `runEmbeddedAttempt` (`src/unnamed/part_005`).

External collaborators that are not part of the sources (the attempt
executor's internals, the credential store, and the pure text classifiers
imported from `../pi-embedded-helpers.js`, `../failover-error.js`,
`../model-auth.js`, `../auth-profiles.js`) are abstracted as oracle
fields of a `RunEnv` record: the orchestrator only branches on their
results, so every execution of the real loop corresponds to a choice of
oracles.  Calls into the external credential store
(`markAuthProfileFailure` / `markAuthProfileGood` / `markAuthProfileUsed`)
are recorded as an event trace, and the ghost fields `attemptIdx` /
`rotationCalls` record, for each attempt, the candidate index in use and
the number of `advanceAuthProfile` invocations.

Effects that no claim inspects are omitted from the state: wall-clock
durations (`durationMs`), `fs.mkdir`, logging, usage counters, and the
github-copilot runtime-token exchange inside `applyApiKeyInfo` (folded
into the `resolveKey` oracle).
-/

/-- Thinking levels , the ordered ladder `off < minimal < low < medium <
high < xhigh` (`ThinkLevel` in `src/auto-reply/thinking.js`). -/
inductive ThinkLevel
  | off
  | minimal
  | low
  | medium
  | high
  | xhigh
deriving DecidableEq

instance : Fintype ThinkLevel where
  elems := ⟨[ThinkLevel.off, ThinkLevel.minimal, ThinkLevel.low,
              ThinkLevel.medium, ThinkLevel.high, ThinkLevel.xhigh], by decide⟩
  complete := fun x => by cases x <;> decide

/-- Failure taxonomy used by `classifyFailoverReason` and the profile
store (spec 4.3: `timeout`, `rate_limit`, `auth`, `server_error`,
`unknown`). -/
inductive FailoverReason
  | timeout
  | rate_limit
  | auth
  | server_error
  | unknown
deriving DecidableEq

/-- The trailing assistant message of a completed attempt (the fields the
orchestrator reads from `lastAssistant`). -/
structure AssistantMsg where
  errorMessage : Option String := none
  provider : Option String := none
  model : Option String := none
deriving DecidableEq

/-- Structured outcome of one `runEmbeddedAttempt` call
(`EmbeddedRunAttemptResult`, the fields the retry loop destructures at
`run.ts:229`). `promptError` carries the error text after
`describeUnknownError`. -/
structure AttemptResult where
  aborted : Bool := false
  timedOut : Bool := false
  promptError : Option String := none
  sessionIdUsed : String := ""
  lastAssistant : Option AssistantMsg := none
  cloudCodeAssistFormatError : Bool := false
deriving DecidableEq

/-- Result of `getApiKeyForModel` (the field the loop keeps:
`apiKeyInfo.profileId`, `run.ts:48-52`). -/
structure ApiKeyInfo where
  profileId : Option String := none
deriving DecidableEq

/-- One payload entry of `EmbeddedPiRunResult.payloads`
(`src/unnamed/part_002`). -/
structure Payload where
  text : Option String := none
  isError : Bool := false
deriving DecidableEq

/-- Soft-error tag kinds (`EmbeddedPiRunMeta.error.kind`,
`src/unnamed/part_002`). -/
inductive SoftErrorKind
  | context_overflow
  | compaction_failure
deriving DecidableEq

/-- `EmbeddedPiAgentMeta` (`src/unnamed/part_002`); usage counters
omitted. -/
structure EmbeddedPiAgentMeta where
  sessionId : String
  provider : String
  model : String
deriving DecidableEq

/-- `EmbeddedPiRunMeta` (`src/unnamed/part_002`); `durationMs` and
`systemPromptReport` omitted. -/
structure EmbeddedPiRunMeta where
  agentMeta : EmbeddedPiAgentMeta
  aborted : Option Bool := none
  error : Option (SoftErrorKind × String) := none
deriving DecidableEq

/-- `EmbeddedPiRunResult` (`src/unnamed/part_002`); messaging-tool fields
omitted. -/
structure EmbeddedPiRunResult where
  payloads : Option (List Payload) := none
  meta : EmbeddedPiRunMeta
deriving DecidableEq

/-- The typed failover error (`FailoverError` of `../failover-error.js`,
constructed at `run.ts:104` and `run.ts:359`): message plus
`{reason, provider, model, profileId, status}`. -/
structure FailoverErrorData where
  message : String
  reason : FailoverReason
  provider : String
  model : String
  profileId : Option String := none
  status : Option Nat := none
deriving DecidableEq

/-- The error channel of a run: a typed `FailoverError`, a plain
`new Error(...)` (`generic`), a propagated credential-resolution error
(`credential`), or the rethrow of an attempt's original prompt error
(`prompt`, `run.ts:286`). -/
inductive RunError
  | failover (e : FailoverErrorData)
  | generic (message : String)
  | credential (message : String)
  | prompt (message : String)
deriving DecidableEq

/-- Calls the orchestrator makes into the external auth-profile store
(`markAuthProfileFailure` / `markAuthProfileGood` / `markAuthProfileUsed`
from `../auth-profiles.js`), recorded in order. -/
inductive StoreEvent
  | markFailure (profileId : String) (reason : FailoverReason)
  | markGood (profileId : String)
  | markUsed (profileId : String)
deriving DecidableEq

/-- External collaborators and pure helper classifiers, abstracted as
oracles. The classifier fields stand for the string-matching helpers of
`../pi-embedded-helpers.js` (not among the sources); `resolveKey` stands
for `getApiKeyForModel` (plus the copilot token exchange); `attempts k`
is the structured outcome of the `k`-th `runEmbeddedAttempt` invocation
of the run (any dependence of the real attempt on the current
credential/thinking level is absorbed by the index, which strictly
increases across calls). -/
structure RunEnv where
  isContextOverflowError : String → Bool
  isCompactionFailureError : String → Bool
  classifyFailoverReason : String → Option FailoverReason
  isFailoverErrorMessage : String → Bool
  isFailoverAssistantError : Option AssistantMsg → Bool
  isAuthAssistantError : Option AssistantMsg → Bool
  isRateLimitAssistantError : Option AssistantMsg → Bool
  isTimeoutErrorMessage : String → Bool
  pickFallbackThinkingLevel : Option String → List ThinkLevel → Option ThinkLevel
  resolveFailoverStatus : FailoverReason → Option Nat
  formatAssistantErrorText : AssistantMsg → String
  buildPayloads : AttemptResult → List Payload
  resolveKey : Option String → Except String ApiKeyInfo
  attempts : Nat → AttemptResult

/-- The caller-supplied parameters the loop reads
(`RunEmbeddedPiAgentParams`): `thinkLevel` already defaulted to `off`
(`run.ts:124`), `fallbackConfigured` is
`(params.config?.agents?.defaults?.model?.fallbacks?.length ?? 0) > 0`
(`run.ts:301-302`), and `contextTokens` is the resolved context-window
size with the warn/hard-min thresholds it is compared against. -/
structure RunParams where
  provider : String := ""
  modelId : String := ""
  authProfileId : Option String := none
  thinkLevel : ThinkLevel := ThinkLevel.off
  fallbackConfigured : Bool := false
  contextTokens : Nat := 0
  warnBelowTokens : Nat := 0
  hardMinTokens : Nat := 0

/-- Result of the context-window guard. Modelled from the spec:
`evaluateContextWindowGuard` lives in `src/agents/context-window-guard.ts`
which is not among the sources; spec 4.1 gives the contract
`shouldBlock` iff `resolvedTokens < hardMin`, `shouldWarn` iff
`resolvedTokens < warnBelow` and not already blocking (the `source`
string is omitted). -/
structure ContextWindowGuardResult where
  tokens : Nat
  shouldWarn : Bool
  shouldBlock : Bool
deriving DecidableEq

/-- Modelled from the spec: the pure admission check of spec 4.1 (the
implementation in `src/agents/context-window-guard.ts` is not among the
sources). -/
def evaluateContextWindowGuard (tokens warnBelow hardMin : Nat) :
    ContextWindowGuardResult :=
  let shouldBlock := decide (tokens < hardMin)
  { tokens := tokens
    shouldBlock := shouldBlock
    shouldWarn := !shouldBlock && decide (tokens < warnBelow) }

/-- JavaScript truthiness of a `string | undefined` value (`undefined`
and the empty string are falsy). -/
def tsTruthy : Option String → Bool
  | none => false
  | some s => !s.isEmpty

/-- JavaScript `String.prototype.trim`, written over the character list
so that it evaluates by kernel reduction. -/
def jsTrim (s : String) : String :=
  String.mk
    (((s.data.dropWhile Char.isWhitespace).reverse.dropWhile
        Char.isWhitespace).reverse)

/-- `run.ts:121`:
`profileOrder.length > 0 ? profileOrder : [undefined]`. -/
def profileCandidates (profileOrder : List String) : List (Option String) :=
  if profileOrder.isEmpty then [none] else profileOrder.map some

/-- `attemptedThinking.add(thinkLevel)` (`run.ts:182`): JS `Set.add`,
i.e. insert if not already present. -/
def addThinking (l : ThinkLevel) (s : List ThinkLevel) : List ThinkLevel :=
  if l ∈ s then s else s ++ [l]

/-- Mutable state of the retry loop (`run.ts:122-128`) together with the
ghost trace fields `attemptIdx` (candidate index at each attempt start),
`events` (store calls) and `rotationCalls` (number of
`advanceAuthProfile` invocations). -/
structure LoopState where
  profileIndex : Nat := 0
  thinkLevel : ThinkLevel := ThinkLevel.off
  attempted : List ThinkLevel := []
  lastProfileId : Option String := none
  attemptCount : Nat := 0
  attemptIdx : List Nat := []
  events : List StoreEvent := []
  rotationCalls : Nat := 0
deriving DecidableEq

/-- `applyApiKeyInfo` (`run.ts:139-152`): resolve the candidate's
credential and remember the resolved profile id; on a thrown resolution
error the state is untouched. -/
def applyApiKeyInfo (env : RunEnv) (candidate : Option String)
    (st : LoopState) : Except String LoopState :=
  match env.resolveKey candidate with
  | Except.error e => Except.error e
  | Except.ok info => Except.ok { st with lastProfileId := info.profileId }

/-- `run.ts:158-167` viewed per candidate: a remaining candidate is
unusable when its credential fails to resolve and it is not the
explicitly pinned candidate (whose resolution failure is rethrown
instead of skipped).  `advanceAuthProfile` finds no further usable
candidate exactly when every candidate after the current index is
unusable: vacuously so at the end of the list, but also when later
candidates exist and all fail to resolve. -/
def candidateUnusable (env : RunEnv) (explicitProfileId : Option String)
    (candidate : Option String) : Bool :=
  (match env.resolveKey candidate with
   | Except.error _ => true
   | Except.ok _ => false) &&
  !(tsTruthy candidate && candidate == explicitProfileId)

/-- The `while (nextIndex < profileCandidates.length)` body of
`advanceAuthProfile` (`run.ts:155-168`), walking the remaining
candidates: on a successful resolution, commit the new index, reset the
thinking level to the run's initial level and clear the attempted set;
on a resolution error for the explicitly pinned candidate, rethrow;
otherwise skip to the next candidate.  Returns the advance result
(`ok true` advanced / `ok false` exhausted / `error` rethrown) with the
resulting state. -/
def advanceOver (env : RunEnv) (explicitProfileId : Option String)
    (initialThinkLevel : ThinkLevel) (st : LoopState) :
    List (Option String) → Nat → Except String Bool × LoopState
  | [], _ => (Except.ok false, st)
  | candidate :: rest, idx =>
    match applyApiKeyInfo env candidate st with
    | Except.ok st' =>
      (Except.ok true,
        { st' with profileIndex := idx, thinkLevel := initialThinkLevel,
                   attempted := [] })
    | Except.error e =>
      if tsTruthy candidate && candidate == explicitProfileId then
        (Except.error e, st)
      else
        advanceOver env explicitProfileId initialThinkLevel st rest (idx + 1)

/-- `advanceAuthProfile` (`run.ts:154-170`): try the candidates after the
current index. The ghost counter `rotationCalls` records the
invocation. -/
def advanceAuthProfile (env : RunEnv) (explicitProfileId : Option String)
    (initialThinkLevel : ThinkLevel) (candidates : List (Option String))
    (st : LoopState) : Except String Bool × LoopState :=
  advanceOver env explicitProfileId initialThinkLevel
    { st with rotationCalls := st.rotationCalls + 1 }
    (candidates.drop (st.profileIndex + 1)) (st.profileIndex + 1)

/-- One transition of the retry loop: retry (`continue`), return a
result, or throw. The carried state is the loop state after the
iteration's effects. -/
inductive Step
  | next (st : LoopState)
  | done (result : EmbeddedPiRunResult) (st : LoopState)
  | raise (e : RunError) (st : LoopState)
deriving DecidableEq

/-- The loop state carried by a `Step`. -/
def Step.state : Step → LoopState
  | Step.next st => st
  | Step.done _ st => st
  | Step.raise _ st => st

/-- The fixed soft-error payload text (`run.ts:240-242`). -/
def overflowPayloadText : String :=
  "Context overflow: prompt too large for the model. " ++
    "Try again with less input or a larger-context model."

/-- The ordinary completion path (`run.ts:369-413`): build the final
payloads and meta, mark the resolved profile good and used, and return.
Reached both on a plain successful attempt and on the fall-through after
an exhausted rotation with no fallback chain configured. -/
def successReturn (env : RunEnv) (p : RunParams) (attempt : AttemptResult)
    (st : LoopState) : Step :=
  let lastAssistant := attempt.lastAssistant
  let st' :=
    match st.lastProfileId with
    | some pid =>
      { st with events :=
          st.events ++ [StoreEvent.markGood pid, StoreEvent.markUsed pid] }
    | none => st
  let payloads := env.buildPayloads attempt
  Step.done
    { payloads := if payloads.isEmpty then none else some payloads
      meta :=
        { agentMeta :=
            { sessionId := attempt.sessionIdUsed
              provider := (lastAssistant.bind (fun a => a.provider)).getD p.provider
              model := (lastAssistant.bind (fun a => a.model)).getD p.modelId }
          aborted := some attempt.aborted
          error := none } }
    st'

/-- Tail of the prompt-error branch (`run.ts:275-286`): try a
thinking-level downgrade, else rethrow the original prompt error. -/
def promptFallbackOrThrow (env : RunEnv) (errorText : String)
    (st : LoopState) : Step :=
  match env.pickFallbackThinkingLevel (some errorText) st.attempted with
  | some lvl => Step.next { st with thinkLevel := lvl }
  | none => Step.raise (RunError.prompt errorText) st

/-- The rotation attempt of the prompt-error branch (`run.ts:268-286`):
when the text is failover-worthy and not classified as a timeout, try to
advance the profile and retry; otherwise (or if advancing exhausts the
candidates) try a thinking-level downgrade, else rethrow. -/
def promptRotateOrFallback (env : RunEnv) (p : RunParams)
    (explicitProfileId : Option String) (candidates : List (Option String))
    (errorText : String) (st1 : LoopState) : Step :=
  if env.isFailoverErrorMessage errorText ∧
      env.classifyFailoverReason errorText ≠ some FailoverReason.timeout then
    match advanceAuthProfile env explicitProfileId p.thinkLevel candidates st1 with
    | (Except.ok true, st2) => Step.next st2
    | (Except.ok false, st2) => promptFallbackOrThrow env errorText st2
    | (Except.error e, st2) => Step.raise (RunError.credential e) st2
  else promptFallbackOrThrow env errorText st1

/-- The `if (promptError && !aborted)` branch (`run.ts:231-287`):
soft-error return on a context-overflow signature, otherwise record a
non-timeout failover classification against the current profile, then
rotate / downgrade / rethrow (`promptRotateOrFallback`). -/
def promptErrorBranch (env : RunEnv) (p : RunParams)
    (explicitProfileId : Option String) (candidates : List (Option String))
    (attempt : AttemptResult) (errorText : String) (st : LoopState) : Step :=
  if env.isContextOverflowError errorText then
    let kind :=
      if env.isCompactionFailureError errorText then
        SoftErrorKind.compaction_failure
      else SoftErrorKind.context_overflow
    Step.done
      { payloads := some [{ text := some overflowPayloadText, isError := true }]
        meta :=
          { agentMeta :=
              { sessionId := attempt.sessionIdUsed
                provider := p.provider
                model := p.modelId }
            aborted := none
            error := some (kind, errorText) } }
      st
  else
    let promptFailoverReason := env.classifyFailoverReason errorText
    let st1 :=
      match promptFailoverReason, st.lastProfileId with
      | some r, some pid =>
        if r = FailoverReason.timeout then st
        else { st with events := st.events ++ [StoreEvent.markFailure pid r] }
      | _, _ => st
    promptRotateOrFallback env p explicitProfileId candidates errorText st1

/-- The error message the exhausted-rotation `FailoverError` carries
(`run.ts:341-355`): trimmed assistant error text, else the formatted
assistant error, else a canned message chosen by the failure flavour. -/
def failoverMessage (env : RunEnv) (attempt : AttemptResult) : String :=
  let lastAssistant := attempt.lastAssistant
  let m1 := jsTrim ((lastAssistant.bind (fun a => a.errorMessage)).getD "")
  let m2 :=
    match lastAssistant with
    | some a => env.formatAssistantErrorText a
    | none => ""
  let m3 :=
    if attempt.timedOut then "LLM request timed out."
    else if env.isRateLimitAssistantError lastAssistant then
      "LLM request rate limited."
    else if env.isAuthAssistantError lastAssistant then
      "LLM request unauthorized."
    else "LLM request failed."
  if !m1.isEmpty then m1 else if !m2.isEmpty then m2 else m3

/-- The typed error thrown when rotation is exhausted and a fallback
model chain is configured (`run.ts:356-365`). -/
def exhaustedFailoverError (env : RunEnv) (p : RunParams)
    (attempt : AttemptResult) (lastProfileId : Option String) :
    FailoverErrorData :=
  let assistantFailoverReason :=
    env.classifyFailoverReason
      ((attempt.lastAssistant.bind (fun a => a.errorMessage)).getD "")
  let message := failoverMessage env attempt
  let status :=
    match env.resolveFailoverStatus
        (assistantFailoverReason.getD FailoverReason.unknown) with
    | some s => some s
    | none => if env.isTimeoutErrorMessage message then some 408 else none
  { message := message
    reason := assistantFailoverReason.getD FailoverReason.unknown
    provider := p.provider
    model := p.modelId
    profileId := lastProfileId
    status := status }

/-- The rotation attempt after a failover-worthy completed attempt
(`run.ts:337-367`): advance and retry; on exhaustion raise the typed
`FailoverError` when a fallback chain is configured, otherwise fall
through to the ordinary completion path. -/
def rotateAdvance (env : RunEnv) (p : RunParams)
    (explicitProfileId : Option String) (candidates : List (Option String))
    (attempt : AttemptResult) (st1 : LoopState) : Step :=
  match advanceAuthProfile env explicitProfileId p.thinkLevel candidates st1 with
  | (Except.ok true, st2) => Step.next st2
  | (Except.error e, st2) => Step.raise (RunError.credential e) st2
  | (Except.ok false, st2) =>
    if p.fallbackConfigured then
      Step.raise
        (RunError.failover (exhaustedFailoverError env p attempt st2.lastProfileId))
        st2
    else successReturn env p attempt st2

/-- The reason recorded against the current profile before rotating
(`run.ts:314-317`): any timeout forces `timeout`, else the assistant
classification, defaulting to `unknown`. -/
def rotationFailureReason (env : RunEnv) (attempt : AttemptResult) :
    FailoverReason :=
  let assistantFailoverReason :=
    env.classifyFailoverReason
      ((attempt.lastAssistant.bind (fun a => a.errorMessage)).getD "")
  if attempt.timedOut ∨ assistantFailoverReason = some FailoverReason.timeout
  then FailoverReason.timeout
  else assistantFailoverReason.getD FailoverReason.unknown

def rotateOrFinish (env : RunEnv) (p : RunParams)
    (explicitProfileId : Option String) (candidates : List (Option String))
    (attempt : AttemptResult) (st : LoopState) : Step :=
  let failoverFailure := env.isFailoverAssistantError attempt.lastAssistant
  let shouldRotate := (!attempt.aborted && failoverFailure) || attempt.timedOut
  if shouldRotate then
    let st1 :=
      match st.lastProfileId with
      | some pid =>
        { st with events := st.events ++
            [StoreEvent.markFailure pid (rotationFailureReason env attempt)] }
      | none => st
    rotateAdvance env p explicitProfileId candidates attempt st1
  else successReturn env p attempt st

/-- The downgrade check on a completed attempt (`run.ts:289-299`)
followed by `rotateOrFinish`. -/
def completedBranch (env : RunEnv) (p : RunParams)
    (explicitProfileId : Option String) (candidates : List (Option String))
    (attempt : AttemptResult) (st : LoopState) : Step :=
  match env.pickFallbackThinkingLevel
      (attempt.lastAssistant.bind (fun a => a.errorMessage)) st.attempted,
      attempt.aborted with
  | some lvl, false => Step.next { st with thinkLevel := lvl }
  | _, _ => rotateOrFinish env p explicitProfileId candidates attempt st

/-- One iteration of the `while (true)` retry loop (`run.ts:181-414`):
record the current thinking level as attempted, run the attempt, then
dispatch on `promptError && !aborted`. -/
def loopStep (env : RunEnv) (p : RunParams)
    (explicitProfileId : Option String) (candidates : List (Option String))
    (st0 : LoopState) : Step :=
  let st1 := { st0 with attempted := addThinking st0.thinkLevel st0.attempted }
  let attempt := env.attempts st1.attemptCount
  let st :=
    { st1 with attemptCount := st1.attemptCount + 1,
               attemptIdx := st1.attemptIdx ++ [st1.profileIndex] }
  match attempt.promptError, attempt.aborted with
  | some errorText, false =>
    promptErrorBranch env p explicitProfileId candidates attempt errorText st
  | _, _ => completedBranch env p explicitProfileId candidates attempt st

/-- Overall outcome of a run: a normal result, a thrown error, or the
fuel-exhaustion marker of the embedding (never reached, see the
termination theorem). -/
inductive RunOutcome
  | ok (result : EmbeddedPiRunResult)
  | err (e : RunError)
  | fuelOut
deriving DecidableEq

/-- `true` iff the run returned a normal result. -/
def RunOutcome.isOk : RunOutcome → Bool
  | RunOutcome.ok _ => true
  | _ => false

/-- The fuel-indexed retry loop. -/
def runLoop (env : RunEnv) (p : RunParams)
    (explicitProfileId : Option String) (candidates : List (Option String)) :
    Nat → LoopState → RunOutcome × LoopState
  | 0, st => (RunOutcome.fuelOut, st)
  | Nat.succ fuel, st =>
    match loopStep env p explicitProfileId candidates st with
    | Step.next st' => runLoop env p explicitProfileId candidates fuel st'
    | Step.done r st' => (RunOutcome.ok r, st')
    | Step.raise e st' => (RunOutcome.err e, st')

/-- `runEmbeddedPiAgent` (`run.ts:54-420`), from the context-window guard
on: guard short-circuit (`run.ts:100-108`), pinned-profile configuration
check (`run.ts:118-120`), candidate construction (`run.ts:121`), initial
credential resolution with its pinned-rethrow / advance / rethrow logic
(`run.ts:172-178`), then the retry loop.  The lane scheduling, model
resolution and workspace handling upstream of the guard are outside this
embedding. -/
def runEmbeddedPiAgent (env : RunEnv) (p : RunParams)
    (profileOrder : List String) (fuel : Nat) : RunOutcome × LoopState :=
  let st0 : LoopState := { thinkLevel := p.thinkLevel }
  let ctxGuard :=
    evaluateContextWindowGuard p.contextTokens p.warnBelowTokens p.hardMinTokens
  if ctxGuard.shouldBlock then
    (RunOutcome.err
      (RunError.failover
        { message := "Model context window too small (" ++
            toString ctxGuard.tokens ++ " tokens). Minimum is " ++
            toString p.hardMinTokens ++ "."
          reason := FailoverReason.unknown
          provider := p.provider
          model := p.modelId }),
      st0)
  else
    let explicitProfileId := p.authProfileId.map jsTrim
    if tsTruthy explicitProfileId ∧
        ¬ (explicitProfileId.getD "") ∈ profileOrder then
      (RunOutcome.err
        (RunError.generic
          ("Auth profile \"" ++ (explicitProfileId.getD "") ++
            "\" is not configured for " ++ p.provider ++ ".")),
        st0)
    else
      let candidates := profileCandidates profileOrder
      match applyApiKeyInfo env (candidates.getD 0 none) st0 with
      | Except.ok st1 => runLoop env p explicitProfileId candidates fuel st1
      | Except.error e =>
        if candidates.getD 0 none == explicitProfileId then
          (RunOutcome.err (RunError.credential e), st0)
        else
          match advanceAuthProfile env explicitProfileId p.thinkLevel
              candidates st0 with
          | (Except.ok true, st1) =>
            runLoop env p explicitProfileId candidates fuel st1
          | (Except.ok false, st1) => (RunOutcome.err (RunError.credential e), st1)
          | (Except.error e2, st1) => (RunOutcome.err (RunError.credential e2), st1)

/-- The abort flags of one attempt (`run/attempt.ts`, `src/unnamed/part_005`
lines 324-331): `abortRun` always sets `aborted` and additionally sets
`timedOut` when invoked by the timeout timer. -/
structure AbortFlags where
  aborted : Bool
  timedOut : Bool
deriving DecidableEq

/-- `abortRun` (`src/unnamed/part_005:326-331`). -/
def abortRun (f : AbortFlags) (isTimeout : Bool) : AbortFlags :=
  { aborted := true, timedOut := f.timedOut || isTimeout }

/-- The flags an attempt starts with
(`src/unnamed/part_005:324-325`): `aborted` mirrors the already-fired
external signal, `timedOut` starts false. -/
def initialAbortFlags (signalAborted : Bool) : AbortFlags :=
  { aborted := signalAborted, timedOut := false }

/-- The working-directory scoping of `runEmbeddedAttempt`
(`src/unnamed/part_005`: save `prevCwd` at line 74, `process.chdir` to
the effective workspace at line 97, unconditional
`process.chdir(prevCwd)` in the `finally` at lines 472-475).  The body
is an arbitrary computation on the process-wide cwd that may itself move
it and may end in a thrown error; the `finally` applies on every exit
path. -/
def attemptChdirScope {E A : Type} (effectiveWorkspace : String)
    (body : String → String × Except E A) (cwd0 : String) :
    String × Except E A :=
  let prevCwd := cwd0
  let inner := body effectiveWorkspace
  (prevCwd, inner.2)

/-- The working-directory scoping of `runEmbeddedPiAgent` (`run.ts`: save
`prevCwd` at line 66, unconditional `process.chdir(prevCwd)` in the
`finally` at lines 415-417 around the whole retry loop). -/
def runChdirScope {E A : Type} (body : String → String × Except E A)
    (cwd0 : String) : String × Except E A :=
  let prevCwd := cwd0
  let inner := body cwd0
  (prevCwd, inner.2)


/-- Per-iteration bookkeeping shape used by the traversal invariants:
events only grow, the attempt-index trace is untouched by the branch
bodies, the candidate index never decreases, and when it moves it stays
inside the candidate list. -/
def stepShape (candidates : List (Option String)) (stB : LoopState)
    (s : Step) : Prop :=
  (∃ evs, (Step.state s).events = stB.events ++ evs) ∧
  (Step.state s).attemptIdx = stB.attemptIdx ∧
  stB.profileIndex ≤ (Step.state s).profileIndex ∧
  ((Step.state s).profileIndex = stB.profileIndex ∨
    (Step.state s).profileIndex < candidates.length) ∧
  (Step.state s).attemptCount = stB.attemptCount

/-- The candidate-traversal invariant: the per-attempt index trace is
monotone, bounded by the current index, and the current index is inside
the candidate list. -/
def IdxInv (candidates : List (Option String)) (st : LoopState) : Prop :=
  List.Chain' (· ≤ ·) st.attemptIdx ∧
  (∀ i ∈ st.attemptIdx, i ≤ st.profileIndex) ∧
  st.profileIndex < candidates.length

/-- A loop state that can start the retry loop: empty traces, no attempt
performed yet, a cleared attempted set, and an index inside the
candidate list. -/
def initialLoopState (candidates : List (Option String)) (st1 : LoopState) :
    Prop :=
  st1.attemptIdx = [] ∧ st1.events = [] ∧ st1.attemptCount = 0 ∧
  st1.attempted = [] ∧ st1.profileIndex < candidates.length

/-- The attempted-set invariant of the loop: no duplicates and the
current thinking level not yet recorded. -/
def TInv (st : LoopState) : Prop :=
  st.attempted.Nodup ∧ st.thinkLevel ∉ st.attempted

/-- Fuel bound for the retry loop: six thinking levels per remaining
candidate, less what was already attempted on the current one. -/
def loopBound (candidates : List (Option String)) (st : LoopState) : Nat :=
  6 * (candidates.length - st.profileIndex) - st.attempted.length
/-! ## Concrete instantiations used as evaluation inputs -/

/-- The per-iteration bookkeeping applied to the loop state before the
attempt outcome is dispatched (`run.ts:182` plus the ghost trace):
current thinking level recorded as attempted, attempt counted, current
candidate index traced. -/
def bookkeepState (st : LoopState) : LoopState :=
  { st with attempted := addThinking st.thinkLevel st.attempted,
            attemptCount := st.attemptCount + 1,
            attemptIdx := st.attemptIdx ++ [st.profileIndex] }

/-- The structured soft-error result (`run.ts:237-256`). -/
def softOverflowResult (p : RunParams) (attempt : AttemptResult)
    (kind : SoftErrorKind) (errorText : String) : EmbeddedPiRunResult :=
  { payloads := some [{ text := some overflowPayloadText, isError := true }]
    meta :=
      { agentMeta :=
          { sessionId := attempt.sessionIdUsed
            provider := p.provider
            model := p.modelId }
        aborted := none
        error := some (kind, errorText) } }

/-- The ordinary completion result (`run.ts:369-413`). -/
def successResult (env : RunEnv) (p : RunParams) (attempt : AttemptResult) :
    EmbeddedPiRunResult :=
  { payloads := if (env.buildPayloads attempt).isEmpty then none
                else some (env.buildPayloads attempt)
    meta :=
      { agentMeta :=
          { sessionId := attempt.sessionIdUsed
            provider := (attempt.lastAssistant.bind (fun a => a.provider)).getD p.provider
            model := (attempt.lastAssistant.bind (fun a => a.model)).getD p.modelId }
        aborted := some attempt.aborted
        error := none } }


/-- A plain successful attempt outcome. -/
def plainAttempt : AttemptResult :=
  { aborted := false, timedOut := false, promptError := none,
    sessionIdUsed := "session-1", lastAssistant := none,
    cloudCodeAssistFormatError := false }

/-- A baseline oracle environment: every credential resolves to its
candidate id, every attempt succeeds, every classifier declines. -/
def envBase : RunEnv :=
  { isContextOverflowError := fun _ => false
    isCompactionFailureError := fun _ => false
    classifyFailoverReason := fun _ => none
    isFailoverErrorMessage := fun _ => false
    isFailoverAssistantError := fun _ => false
    isAuthAssistantError := fun _ => false
    isRateLimitAssistantError := fun _ => false
    isTimeoutErrorMessage := fun _ => false
    pickFallbackThinkingLevel := fun _ _ => none
    resolveFailoverStatus := fun _ => none
    formatAssistantErrorText := fun _ => ""
    buildPayloads := fun _ => []
    resolveKey := fun c => Except.ok { profileId := c }
    attempts := fun _ => plainAttempt }

/-- Baseline run parameters: ample context window, no pinned profile,
no fallback model chain. -/
def pBase : RunParams :=
  { provider := "prov-a", modelId := "model-a", authProfileId := none,
    thinkLevel := ThinkLevel.off, fallbackConfigured := false,
    contextTokens := 100000, warnBelowTokens := 2000, hardMinTokens := 1000 }

/-- Parameters whose resolved context window is below the hard minimum
(spec scenario D). -/
def pGuardBlocked : RunParams :=
  { pBase with contextTokens := 500, hardMinTokens := 1000 }

/-- Parameters with an explicitly pinned auth profile. -/
def pPinned : RunParams := { pBase with authProfileId := some "p1" }

/-- Parameters with a fallback model chain configured. -/
def pFallback : RunParams := { pBase with fallbackConfigured := true }

/-- Environment whose every attempt times out (and is therefore also
aborted, as `abortRun` guarantees). -/
def envTimeoutAttempt : RunEnv :=
  { envBase with attempts :=
      fun _ => { plainAttempt with aborted := true, timedOut := true } }

/-- Environment whose every attempt times out and where only the first
profile's credential resolves: a further candidate exists but is
unusable, so rotation is exhausted by skipping it. -/
def secondKeyMissingResolve (c : Option String) : Except String ApiKeyInfo :=
  if c == some "p1" then Except.ok { profileId := some "p1" }
  else Except.error "missing secret"

/-- The environment itself. -/
def envSecondKeyMissing : RunEnv :=
  { envTimeoutAttempt with resolveKey := secondKeyMissingResolve }

/-- Environment whose every attempt is externally aborted without a
timeout. -/
def envAborted : RunEnv :=
  { envBase with attempts :=
      fun _ => { plainAttempt with aborted := true } }

/-- Environment whose every attempt fails with a prompt-level error
matching the context-overflow signature. -/
def envOverflow : RunEnv :=
  { envBase with
    isContextOverflowError := fun s => s == "overflow"
    attempts := fun _ => { plainAttempt with promptError := some "overflow" } }

/-- The trailing assistant message of a rate-limited attempt. -/
def rateLimitedAssistant : AssistantMsg :=
  { errorMessage := some "rate limited", provider := none, model := none }

/-- Environment whose every attempt completes with a rate-limited
trailing assistant message, classified as failover-worthy. -/
def envRateLimited : RunEnv :=
  { envBase with
    isFailoverAssistantError := fun a => a == some rateLimitedAssistant
    isRateLimitAssistantError := fun a => a == some rateLimitedAssistant
    classifyFailoverReason := fun s =>
      if s == "rate limited" then some FailoverReason.rate_limit else none
    attempts := fun _ => { plainAttempt with lastAssistant := some rateLimitedAssistant } }

/-- Environment where no credential ever resolves. -/
def envFailKey : RunEnv :=
  { envBase with resolveKey := fun _ => Except.error "no credential" }

/-- A loop state holding the resolved profile `p1`, as after the initial
`applyApiKeyInfo`. -/
def stW : LoopState := { lastProfileId := some "p1" }

/-- The run result of an aborted-but-completed iteration under
`envAborted`. -/
def resC10W : EmbeddedPiRunResult :=
  { payloads := none
    meta :=
      { agentMeta :=
          { sessionId := "session-1", provider := "prov-a", model := "model-a" }
        aborted := some true
        error := none } }

/-- The loop state after that iteration. -/
def stC10W : LoopState :=
  { profileIndex := 0, thinkLevel := ThinkLevel.off,
    attempted := [ThinkLevel.off], lastProfileId := some "p1",
    attemptCount := 1, attemptIdx := [0],
    events := [StoreEvent.markGood "p1", StoreEvent.markUsed "p1"],
    rotationCalls := 0 }

/-! ## Shared structural lemmas -/

/-- The candidate list is never empty (`run.ts:121` falls back to the
single `undefined` sentinel). -/
theorem profileCandidates_length_pos (profileOrder : List String) :
    0 < (profileCandidates profileOrder).length := by
  cases profileOrder <;> simp [profileCandidates]

/-- A successful `applyApiKeyInfo` only records the resolved profile
id. -/
theorem applyApiKeyInfo_ok (env : RunEnv) (candidate : Option String)
    (st st' : LoopState) (h : applyApiKeyInfo env candidate st = Except.ok st') :
    ∃ lp, st' = { st with lastProfileId := lp } := by
  unfold applyApiKeyInfo at h
  cases hk : env.resolveKey candidate with
  | error e => rw [hk] at h; cases h
  | ok info =>
    rw [hk] at h
    injection h with h2
    exact ⟨info.profileId, h2.symm⟩

/-- Shape of an `advanceOver` result: on success the state gets a new
profile id, a committed index in the scanned range, the initial thinking
level and a cleared attempted set; otherwise the state is untouched. -/
theorem advanceOver_shape (env : RunEnv) (explicitProfileId : Option String)
    (initialThinkLevel : ThinkLevel) (st : LoopState) :
    ∀ (rest : List (Option String)) (idx : Nat),
      ((advanceOver env explicitProfileId initialThinkLevel st rest idx).1 = Except.ok true →
        ∃ lp pi, (advanceOver env explicitProfileId initialThinkLevel st rest idx).2 =
            { st with lastProfileId := lp, profileIndex := pi,
                      thinkLevel := initialThinkLevel, attempted := [] } ∧
          idx ≤ pi ∧ pi < idx + rest.length) ∧
      ((advanceOver env explicitProfileId initialThinkLevel st rest idx).1 ≠ Except.ok true →
        (advanceOver env explicitProfileId initialThinkLevel st rest idx).2 = st) := by
  intro rest
  induction rest with
  | nil => intro idx; simp [advanceOver]
  | cons candidate rest ih =>
    intro idx
    simp only [advanceOver]
    cases hk : applyApiKeyInfo env candidate st with
    | ok stk =>
      obtain ⟨lp, hlp⟩ := applyApiKeyInfo_ok env candidate st stk hk
      subst hlp
      constructor
      · intro _
        exact ⟨lp, idx, rfl, Nat.le_refl idx, by simp [Nat.lt_succ_iff]⟩
      · intro hne
        exact absurd rfl hne
    | error e =>
      by_cases hguard : (tsTruthy candidate && candidate == explicitProfileId) = true
      · simp only [hguard, if_pos rfl]
        constructor
        · intro hfalse; cases hfalse
        · intro _; rfl
      · simp only [Bool.not_eq_true] at hguard
        simp only [hguard, Bool.false_eq_true, if_false]
        obtain ⟨h1, h2⟩ := ih (idx + 1)
        refine ⟨fun hok => ?_, h2⟩
        obtain ⟨lp, pi, heq, hle, hlt⟩ := h1 hok
        refine ⟨lp, pi, heq, Nat.le_of_succ_le hle, ?_⟩
        simp only [List.length_cons]
        omega

/-- Shape of an `advanceAuthProfile` result relative to the input state:
the rotation counter always increments; on a successful advance the
index strictly increases but stays inside the candidate list, the
thinking level is reset and the attempted set cleared; otherwise only
the rotation counter changes. -/
theorem advanceAuthProfile_shape (env : RunEnv)
    (explicitProfileId : Option String) (initialThinkLevel : ThinkLevel)
    (candidates : List (Option String)) (st : LoopState) :
    ((advanceAuthProfile env explicitProfileId initialThinkLevel candidates st).1 =
        Except.ok true →
      ∃ lp pi,
        (advanceAuthProfile env explicitProfileId initialThinkLevel candidates st).2 =
          { st with lastProfileId := lp, profileIndex := pi,
                    thinkLevel := initialThinkLevel, attempted := [],
                    rotationCalls := st.rotationCalls + 1 } ∧
        st.profileIndex < pi ∧ pi < candidates.length) ∧
    ((advanceAuthProfile env explicitProfileId initialThinkLevel candidates st).1 ≠
        Except.ok true →
      (advanceAuthProfile env explicitProfileId initialThinkLevel candidates st).2 =
        { st with rotationCalls := st.rotationCalls + 1 }) := by
  unfold advanceAuthProfile
  obtain ⟨h1, h2⟩ := advanceOver_shape env explicitProfileId initialThinkLevel
    { st with rotationCalls := st.rotationCalls + 1 }
    (candidates.drop (st.profileIndex + 1)) (st.profileIndex + 1)
  constructor
  · intro hok
    obtain ⟨lp, pi, heq, hle, hlt⟩ := h1 hok
    rw [List.length_drop] at hlt
    refine ⟨lp, pi, heq, by omega, by omega⟩
  · exact h2

theorem stepShape_of_eq (candidates : List (Option String)) (stB : LoopState)
    (s : Step) (h : Step.state s = stB) : stepShape candidates stB s := by
  refine ⟨⟨[], by simp [h]⟩, by simp [h], by simp [h], Or.inl (by simp [h]),
    by simp [h]⟩

theorem stepShape_compose (candidates : List (Option String))
    (st st1 : LoopState) (s : Step) (evs1 : List StoreEvent)
    (hev : st1.events = st.events ++ evs1)
    (hidx : st1.attemptIdx = st.attemptIdx)
    (hpi : st1.profileIndex = st.profileIndex)
    (hac : st1.attemptCount = st.attemptCount)
    (h : stepShape candidates st1 s) : stepShape candidates st s := by
  obtain ⟨⟨evs, he⟩, h2, h3, h4, h5⟩ := h
  refine ⟨⟨evs1 ++ evs, by rw [he, hev, List.append_assoc]⟩, by rw [h2, hidx],
    ?_, ?_, by rw [h5, hac]⟩
  · rw [← hpi]; exact h3
  · cases h4 with
    | inl h4 => exact Or.inl (by rw [h4, hpi])
    | inr h4 => exact Or.inr h4

theorem successReturn_stepShape (env : RunEnv) (p : RunParams)
    (attempt : AttemptResult) (candidates : List (Option String))
    (st : LoopState) :
    stepShape candidates st (successReturn env p attempt st) := by
  unfold successReturn
  cases h : st.lastProfileId with
  | none => exact stepShape_of_eq _ _ _ rfl
  | some pid =>
    refine ⟨⟨[StoreEvent.markGood pid, StoreEvent.markUsed pid], by simp [Step.state]⟩,
      by simp [Step.state], by simp [Step.state], Or.inl (by simp [Step.state]),
      by simp [Step.state]⟩

theorem promptFallbackOrThrow_stepShape (env : RunEnv) (errorText : String)
    (candidates : List (Option String)) (st : LoopState) :
    stepShape candidates st (promptFallbackOrThrow env errorText st) := by
  unfold promptFallbackOrThrow
  cases h : env.pickFallbackThinkingLevel (some errorText) st.attempted with
  | none => exact stepShape_of_eq _ _ _ rfl
  | some lvl =>
    refine ⟨⟨[], by simp [Step.state]⟩, by simp [Step.state], by simp [Step.state],
      Or.inl (by simp [Step.state]), by simp [Step.state]⟩

theorem stepShape_of_fields (candidates : List (Option String))
    (stB : LoopState) (s : Step)
    (hev : (Step.state s).events = stB.events)
    (hidx : (Step.state s).attemptIdx = stB.attemptIdx)
    (hpi : (Step.state s).profileIndex = stB.profileIndex)
    (hac : (Step.state s).attemptCount = stB.attemptCount) :
    stepShape candidates stB s :=
  ⟨⟨[], by simp [hev]⟩, hidx, Nat.le_of_eq hpi.symm, Or.inl hpi, hac⟩

theorem promptRotateOrFallback_stepShape (env : RunEnv) (p : RunParams)
    (explicitProfileId : Option String) (candidates : List (Option String))
    (errorText : String) (st1 : LoopState) :
    stepShape candidates st1
      (promptRotateOrFallback env p explicitProfileId candidates errorText st1) := by
  simp only [promptRotateOrFallback]
  split
  · rcases hadv : advanceAuthProfile env explicitProfileId p.thinkLevel candidates st1
      with ⟨r1, st2⟩
    obtain ⟨hok, hnot⟩ :=
      advanceAuthProfile_shape env explicitProfileId p.thinkLevel candidates st1
    rw [hadv] at hok hnot
    cases r1 with
    | error e =>
      have h2 : st2 = { st1 with rotationCalls := st1.rotationCalls + 1 } :=
        hnot (by simp)
      show stepShape candidates st1 (Step.raise (RunError.credential e) st2)
      exact stepShape_of_fields candidates st1 _
        (by simp [Step.state, h2]) (by simp [Step.state, h2])
        (by simp [Step.state, h2]) (by simp [Step.state, h2])
    | ok b =>
      cases b with
      | true =>
        obtain ⟨lp, pi, heq, hlt, hlen⟩ := hok rfl
        have heq2 : st2 = { st1 with lastProfileId := lp, profileIndex := pi, thinkLevel := p.thinkLevel, attempted := [], rotationCalls := st1.rotationCalls + 1 } := heq
        show stepShape candidates st1 (Step.next st2)
        refine ⟨⟨[], by simp [Step.state, heq2]⟩, by simp [Step.state, heq2],
          ?_, Or.inr ?_, by simp [Step.state, heq2]⟩
        · simp only [Step.state, heq2]
          exact Nat.le_of_lt hlt
        · simp only [Step.state, heq2]
          exact hlen
      | false =>
        have h2 : st2 = { st1 with rotationCalls := st1.rotationCalls + 1 } :=
          hnot (by simp)
        show stepShape candidates st1 (promptFallbackOrThrow env errorText st2)
        exact stepShape_compose candidates st1 st2 _ []
          (by simp [h2]) (by simp [h2]) (by simp [h2]) (by simp [h2])
          (promptFallbackOrThrow_stepShape env errorText candidates st2)
  · exact promptFallbackOrThrow_stepShape env errorText candidates st1

theorem promptErrorBranch_stepShape (env : RunEnv) (p : RunParams)
    (explicitProfileId : Option String) (candidates : List (Option String))
    (attempt : AttemptResult) (errorText : String) (st : LoopState) :
    stepShape candidates st
      (promptErrorBranch env p explicitProfileId candidates attempt errorText st) := by
  simp only [promptErrorBranch]
  split
  · exact stepShape_of_eq _ _ _ rfl
  · cases hc : env.classifyFailoverReason errorText with
    | none =>
      simp only [hc]
      exact promptRotateOrFallback_stepShape env p explicitProfileId candidates
        errorText st
    | some r =>
      cases hl : st.lastProfileId with
      | none =>
        simp only [hc, hl]
        exact promptRotateOrFallback_stepShape env p explicitProfileId candidates
          errorText st
      | some pid =>
        simp only [hc, hl]
        by_cases hr : r = FailoverReason.timeout
        · simp only [hr, if_pos]
          exact promptRotateOrFallback_stepShape env p explicitProfileId candidates
            errorText st
        · simp only [hr, if_neg, if_false]
          exact stepShape_compose candidates st _ _
            [StoreEvent.markFailure pid r] (by simp) (by simp) (by simp) (by simp)
            (promptRotateOrFallback_stepShape env p explicitProfileId candidates
              errorText _)

theorem rotateAdvance_stepShape (env : RunEnv) (p : RunParams)
    (explicitProfileId : Option String) (candidates : List (Option String))
    (attempt : AttemptResult) (st1 : LoopState) :
    stepShape candidates st1
      (rotateAdvance env p explicitProfileId candidates attempt st1) := by
  simp only [rotateAdvance]
  rcases hadv : advanceAuthProfile env explicitProfileId p.thinkLevel candidates st1
    with ⟨r1, st2⟩
  obtain ⟨hok, hnot⟩ :=
    advanceAuthProfile_shape env explicitProfileId p.thinkLevel candidates st1
  rw [hadv] at hok hnot
  cases r1 with
  | error e =>
    have h2 : st2 = { st1 with rotationCalls := st1.rotationCalls + 1 } :=
      hnot (by simp)
    show stepShape candidates st1 (Step.raise (RunError.credential e) st2)
    exact stepShape_of_fields candidates st1 _
      (by simp [Step.state, h2]) (by simp [Step.state, h2])
      (by simp [Step.state, h2]) (by simp [Step.state, h2])
  | ok b =>
    cases b with
    | true =>
      obtain ⟨lp, pi, heq, hlt, hlen⟩ := hok rfl
      have heq2 : st2 = { st1 with lastProfileId := lp, profileIndex := pi, thinkLevel := p.thinkLevel, attempted := [], rotationCalls := st1.rotationCalls + 1 } := heq
      show stepShape candidates st1 (Step.next st2)
      refine ⟨⟨[], by simp [Step.state, heq2]⟩, by simp [Step.state, heq2],
        ?_, Or.inr ?_, by simp [Step.state, heq2]⟩
      · simp only [Step.state, heq2]
        exact Nat.le_of_lt hlt
      · simp only [Step.state, heq2]
        exact hlen
    | false =>
      have h2 : st2 = { st1 with rotationCalls := st1.rotationCalls + 1 } :=
        hnot (by simp)
      show stepShape candidates st1
        (if p.fallbackConfigured then
          Step.raise
            (RunError.failover
              (exhaustedFailoverError env p attempt st2.lastProfileId)) st2
         else successReturn env p attempt st2)
      split
      · exact stepShape_of_fields candidates st1 _
          (by simp [Step.state, h2]) (by simp [Step.state, h2])
          (by simp [Step.state, h2]) (by simp [Step.state, h2])
      · exact stepShape_compose candidates st1 st2 _ []
          (by simp [h2]) (by simp [h2]) (by simp [h2]) (by simp [h2])
          (successReturn_stepShape env p attempt candidates st2)

theorem rotateOrFinish_stepShape (env : RunEnv) (p : RunParams)
    (explicitProfileId : Option String) (candidates : List (Option String))
    (attempt : AttemptResult) (st : LoopState) :
    stepShape candidates st
      (rotateOrFinish env p explicitProfileId candidates attempt st) := by
  simp only [rotateOrFinish]
  split
  · cases hl : st.lastProfileId with
    | none =>
      simp only [hl]
      exact rotateAdvance_stepShape env p explicitProfileId candidates attempt st
    | some pid =>
      simp only [hl]
      exact stepShape_compose candidates st _ _
        [StoreEvent.markFailure pid (rotationFailureReason env attempt)]
        (by simp) (by simp) (by simp) (by simp)
        (rotateAdvance_stepShape env p explicitProfileId candidates attempt _)
  · exact successReturn_stepShape env p attempt candidates st

theorem completedBranch_stepShape (env : RunEnv) (p : RunParams)
    (explicitProfileId : Option String) (candidates : List (Option String))
    (attempt : AttemptResult) (st : LoopState) :
    stepShape candidates st
      (completedBranch env p explicitProfileId candidates attempt st) := by
  simp only [completedBranch]
  split
  · exact stepShape_of_fields candidates st _ (by simp [Step.state])
      (by simp [Step.state]) (by simp [Step.state]) (by simp [Step.state])
  · exact rotateOrFinish_stepShape env p explicitProfileId candidates attempt st

/-- Per-iteration shape of the retry loop: every iteration appends
exactly the current candidate index to the attempt trace, only appends
store events, never decreases the candidate index, keeps any moved index
inside the candidate list, and performs exactly one attempt. -/
theorem loopStep_shape (env : RunEnv) (p : RunParams)
    (explicitProfileId : Option String) (candidates : List (Option String))
    (st0 : LoopState) :
    (Step.state (loopStep env p explicitProfileId candidates st0)).attemptIdx =
      st0.attemptIdx ++ [st0.profileIndex] ∧
    (∃ evs, (Step.state (loopStep env p explicitProfileId candidates st0)).events =
      st0.events ++ evs) ∧
    st0.profileIndex ≤
      (Step.state (loopStep env p explicitProfileId candidates st0)).profileIndex ∧
    ((Step.state (loopStep env p explicitProfileId candidates st0)).profileIndex =
        st0.profileIndex ∨
      (Step.state (loopStep env p explicitProfileId candidates st0)).profileIndex <
        candidates.length) ∧
    (Step.state (loopStep env p explicitProfileId candidates st0)).attemptCount =
      st0.attemptCount + 1 := by
  simp only [loopStep]
  set st := { st0 with
    attempted := addThinking st0.thinkLevel st0.attempted,
    attemptCount := st0.attemptCount + 1,
    attemptIdx := st0.attemptIdx ++ [st0.profileIndex] } with hst
  have hshape : ∀ s, stepShape candidates st s →
      (Step.state s).attemptIdx = st0.attemptIdx ++ [st0.profileIndex] ∧
      (∃ evs, (Step.state s).events = st0.events ++ evs) ∧
      st0.profileIndex ≤ (Step.state s).profileIndex ∧
      ((Step.state s).profileIndex = st0.profileIndex ∨
        (Step.state s).profileIndex < candidates.length) ∧
      (Step.state s).attemptCount = st0.attemptCount + 1 := by
    intro s h
    obtain ⟨⟨evs, he⟩, h2, h3, h4, h5⟩ := h
    refine ⟨by rw [h2, hst], ⟨evs, by rw [he, hst]⟩, ?_, ?_, by rw [h5, hst]⟩
    · calc st0.profileIndex = st.profileIndex := by rw [hst]
        _ ≤ _ := h3
    · cases h4 with
      | inl h4 => exact Or.inl (by rw [h4, hst])
      | inr h4 => exact Or.inr h4
  split
  · exact hshape _ (promptErrorBranch_stepShape env p explicitProfileId candidates
      (env.attempts st0.attemptCount) _ st)
  · exact hshape _ (completedBranch_stepShape env p explicitProfileId candidates
      (env.attempts st0.attemptCount) st)

/-- `runLoop` preserves any predicate preserved by `loopStep`. -/
theorem runLoop_preserves (env : RunEnv) (p : RunParams)
    (explicitProfileId : Option String) (candidates : List (Option String))
    (P : LoopState → Prop)
    (hstep : ∀ st, P st →
      P (Step.state (loopStep env p explicitProfileId candidates st))) :
    ∀ (fuel : Nat) (st : LoopState), P st →
      P (runLoop env p explicitProfileId candidates fuel st).2 := by
  intro fuel
  induction fuel with
  | zero => intro st h; exact h
  | succ fuel ih =>
    intro st h
    have hs := hstep st h
    simp only [runLoop]
    cases hls : loopStep env p explicitProfileId candidates st with
    | next st' =>
      rw [hls] at hs
      exact ih st' hs
    | done r st' =>
      rw [hls] at hs
      exact hs
    | raise e st' =>
      rw [hls] at hs
      exact hs

theorem loopStep_IdxInv (env : RunEnv) (p : RunParams)
    (explicitProfileId : Option String) (candidates : List (Option String))
    (st : LoopState) (h : IdxInv candidates st) :
    IdxInv candidates
      (Step.state (loopStep env p explicitProfileId candidates st)) := by
  obtain ⟨hchain, hle, hidx⟩ := h
  obtain ⟨hidxeq, -, hmono, hor, -⟩ :=
    loopStep_shape env p explicitProfileId candidates st
  refine ⟨?_, ?_, ?_⟩
  · rw [hidxeq, List.chain'_append]
    refine ⟨hchain, List.chain'_singleton _, ?_⟩
    intro x hx y hy
    have hx' : x ∈ st.attemptIdx := List.mem_of_mem_getLast? hx
    have hy' : st.profileIndex = y := by simpa using hy
    rw [← hy']
    exact hle x hx'
  · intro i hi
    rw [hidxeq] at hi
    rcases List.mem_append.1 hi with hi | hi
    · exact (hle i hi).trans hmono
    · have : i = st.profileIndex := by simpa using hi
      rw [this]
      exact hmono
  · rcases hor with h | h
    · rw [h]
      exact hidx
    · exact h

theorem runLoop_IdxInv (env : RunEnv) (p : RunParams)
    (explicitProfileId : Option String) (candidates : List (Option String))
    (fuel : Nat) (st : LoopState) (h : IdxInv candidates st) :
    IdxInv candidates (runLoop env p explicitProfileId candidates fuel st).2 :=
  runLoop_preserves env p explicitProfileId candidates (IdxInv candidates)
    (fun st h => loopStep_IdxInv env p explicitProfileId candidates st h) fuel st h

/-- A whole run either enters the retry loop from a valid initial state,
or stops before the loop with an error and a pristine trace. -/
theorem runEmbeddedPiAgent_split (env : RunEnv) (p : RunParams)
    (profileOrder : List String) (fuel : Nat) :
    (∃ st1, initialLoopState (profileCandidates profileOrder) st1 ∧
      runEmbeddedPiAgent env p profileOrder fuel =
        runLoop env p (p.authProfileId.map jsTrim)
          (profileCandidates profileOrder) fuel st1) ∨
    (∃ e, (runEmbeddedPiAgent env p profileOrder fuel).1 = RunOutcome.err e ∧
      initialLoopState (profileCandidates profileOrder)
        (runEmbeddedPiAgent env p profileOrder fuel).2) := by
  have hlen := profileCandidates_length_pos profileOrder
  simp only [runEmbeddedPiAgent]
  split
  · exact Or.inr ⟨_, rfl, rfl, rfl, rfl, rfl, hlen⟩
  · split
    · exact Or.inr ⟨_, rfl, rfl, rfl, rfl, rfl, hlen⟩
    · split
      · rename_i st1 hk
        obtain ⟨lp, hlp⟩ := applyApiKeyInfo_ok _ _ _ _ hk
        refine Or.inl ⟨st1, ?_, rfl⟩
        rw [hlp]
        exact ⟨rfl, rfl, rfl, rfl, hlen⟩
      · rename_i e hk
        split
        · exact Or.inr ⟨_, rfl, rfl, rfl, rfl, rfl, hlen⟩
        · obtain ⟨hok, hnot⟩ := advanceAuthProfile_shape env
            (p.authProfileId.map jsTrim) p.thinkLevel
            (profileCandidates profileOrder)
            ({ thinkLevel := p.thinkLevel } : LoopState)
          split
          · rename_i st1 hadv
            rw [hadv] at hok
            obtain ⟨lp, pi, heq, hlt, hplen⟩ := hok rfl
            have heq2 : st1 = { ({ thinkLevel := p.thinkLevel } : LoopState) with lastProfileId := lp, profileIndex := pi, thinkLevel := p.thinkLevel, attempted := [], rotationCalls := 1 } := heq
            refine Or.inl ⟨st1, ?_, rfl⟩
            rw [heq2]
            exact ⟨rfl, rfl, rfl, rfl, hplen⟩
          · rename_i st1 hadv
            rw [hadv] at hnot
            have h2 : st1 = { ({ thinkLevel := p.thinkLevel } : LoopState) with rotationCalls := 1 } := hnot (by simp)
            refine Or.inr ⟨RunError.credential e, rfl, ?_⟩
            rw [h2]
            exact ⟨rfl, rfl, rfl, rfl, hlen⟩
          · rename_i e2 st1 hadv
            rw [hadv] at hnot
            have h2 : st1 = { ({ thinkLevel := p.thinkLevel } : LoopState) with rotationCalls := 1 } := hnot (by simp)
            refine Or.inr ⟨RunError.credential e2, rfl, ?_⟩
            rw [h2]
            exact ⟨rfl, rfl, rfl, rfl, hlen⟩

/-! ## Termination of the retry loop -/

theorem mem_addThinking (x l : ThinkLevel) (s : List ThinkLevel) :
    x ∈ addThinking l s ↔ x ∈ s ∨ x = l := by
  unfold addThinking
  split
  · rename_i hmem
    constructor
    · exact Or.inl
    · rintro (hx | rfl)
      · exact hx
      · exact hmem
  · simp

theorem addThinking_nodup (l : ThinkLevel) (s : List ThinkLevel)
    (h : s.Nodup) : (addThinking l s).Nodup := by
  unfold addThinking
  split
  · exact h
  · rename_i hmem
    rw [List.nodup_append]
    refine ⟨h, List.nodup_singleton _, ?_⟩
    intro a ha hb
    have : a = l := by simpa using hb
    rw [this] at ha
    exact hmem ha

theorem addThinking_length (l : ThinkLevel) (s : List ThinkLevel)
    (hmem : l ∉ s) : (addThinking l s).length = s.length + 1 := by
  unfold addThinking
  rw [if_neg hmem]
  simp

theorem nodup_thinklevel_length_le (s : List ThinkLevel) (h : s.Nodup) :
    s.length ≤ 6 := by
  have hc := h.length_le_card
  have : Fintype.card ThinkLevel = 6 := rfl
  omega

theorem TInv_attempted_le (st : LoopState) (h : TInv st) :
    st.attempted.length ≤ 5 := by
  obtain ⟨hnd, hnm⟩ := h
  have h6 : (st.attempted ++ [st.thinkLevel]).Nodup := by
    rw [List.nodup_append]
    refine ⟨hnd, List.nodup_singleton _, ?_⟩
    intro a ha hb
    have : a = st.thinkLevel := by simpa using hb
    rw [this] at ha
    exact hnm ha
  have := nodup_thinklevel_length_le _ h6
  simp at this
  omega

theorem successReturn_ne_next (env : RunEnv) (p : RunParams)
    (attempt : AttemptResult) (st : LoopState) (st' : LoopState) :
    successReturn env p attempt st ≠ Step.next st' := by
  unfold successReturn
  cases st.lastProfileId <;> exact fun h => Step.noConfusion h

theorem promptFallbackOrThrow_next (env : RunEnv) (errorText : String)
    (stB st' : LoopState)
    (h : promptFallbackOrThrow env errorText stB = Step.next st') :
    ∃ lvl, env.pickFallbackThinkingLevel (some errorText) stB.attempted = some lvl ∧
      st' = { stB with thinkLevel := lvl } := by
  unfold promptFallbackOrThrow at h
  split at h
  · rename_i lvl hp
    injection h with h1
    exact ⟨lvl, hp, h1.symm⟩
  · exact absurd h (fun h => Step.noConfusion h)

/-- Inversion of `rotateAdvance` on a retry outcome: a retry only comes
out of a successful advance, so the new state sits at a strictly larger
index inside the list, with a reset ladder. -/
theorem rotateAdvance_next (env : RunEnv) (p : RunParams)
    (explicitProfileId : Option String) (candidates : List (Option String))
    (attempt : AttemptResult) (st1 st' : LoopState)
    (h : rotateAdvance env p explicitProfileId candidates attempt st1 =
      Step.next st') :
    st1.profileIndex < st'.profileIndex ∧ st'.profileIndex < candidates.length ∧
    st'.attempted = [] ∧ st'.thinkLevel = p.thinkLevel := by
  unfold rotateAdvance at h
  obtain ⟨hok, hnot⟩ :=
    advanceAuthProfile_shape env explicitProfileId p.thinkLevel candidates st1
  split at h
  · rename_i st2 hadv
    rw [hadv] at hok
    obtain ⟨lp, pi, heq, hlt, hplen⟩ := hok rfl
    have heq2 : st2 = { st1 with lastProfileId := lp, profileIndex := pi, thinkLevel := p.thinkLevel, attempted := [], rotationCalls := st1.rotationCalls + 1 } := heq
    injection h with h1
    rw [← h1, heq2]
    exact ⟨hlt, hplen, rfl, rfl⟩
  · exact absurd h (fun h => Step.noConfusion h)
  · rename_i st2 hadv
    split at h
    · exact absurd h (fun h => Step.noConfusion h)
    · exact absurd h (successReturn_ne_next env p attempt st2 st')

/-- Inversion of `promptRotateOrFallback` on a retry outcome: either a
thinking-level downgrade on the same candidate, or a successful
rotation. -/
theorem promptRotateOrFallback_next (env : RunEnv) (p : RunParams)
    (explicitProfileId : Option String) (candidates : List (Option String))
    (errorText : String) (stB st' : LoopState)
    (h : promptRotateOrFallback env p explicitProfileId candidates errorText stB =
      Step.next st') :
    (st'.profileIndex = stB.profileIndex ∧ st'.attempted = stB.attempted ∧
      ∃ lvl, env.pickFallbackThinkingLevel (some errorText) stB.attempted = some lvl ∧
        st'.thinkLevel = lvl) ∨
    (stB.profileIndex < st'.profileIndex ∧ st'.profileIndex < candidates.length ∧
      st'.attempted = [] ∧ st'.thinkLevel = p.thinkLevel) := by
  unfold promptRotateOrFallback at h
  obtain ⟨hok, hnot⟩ :=
    advanceAuthProfile_shape env explicitProfileId p.thinkLevel candidates stB
  split at h
  · split at h
    · rename_i st2 hadv
      rw [hadv] at hok
      obtain ⟨lp, pi, heq, hlt, hplen⟩ := hok rfl
      have heq2 : st2 = { stB with lastProfileId := lp, profileIndex := pi, thinkLevel := p.thinkLevel, attempted := [], rotationCalls := stB.rotationCalls + 1 } := heq
      injection h with h1
      rw [← h1, heq2]
      exact Or.inr ⟨hlt, hplen, rfl, rfl⟩
    · rename_i st2 hadv
      rw [hadv] at hnot
      have h2 : st2 = { stB with rotationCalls := stB.rotationCalls + 1 } :=
        hnot (by simp)
      obtain ⟨lvl, hp, hst⟩ := promptFallbackOrThrow_next env errorText st2 st' h
      rw [h2] at hp hst
      rw [hst]
      exact Or.inl ⟨rfl, rfl, ⟨lvl, hp, rfl⟩⟩
    · exact absurd h (fun h => Step.noConfusion h)
  · obtain ⟨lvl, hp, hst⟩ := promptFallbackOrThrow_next env errorText stB st' h
    rw [hst]
    exact Or.inl ⟨rfl, rfl, ⟨lvl, hp, rfl⟩⟩

/-- Inversion of the prompt-error branch on a retry outcome. -/
theorem promptErrorBranch_next (env : RunEnv) (p : RunParams)
    (explicitProfileId : Option String) (candidates : List (Option String))
    (attempt : AttemptResult) (errorText : String) (stA st' : LoopState)
    (h : promptErrorBranch env p explicitProfileId candidates attempt errorText stA =
      Step.next st') :
    (st'.profileIndex = stA.profileIndex ∧ st'.attempted = stA.attempted ∧
      ∃ msg lvl, env.pickFallbackThinkingLevel msg stA.attempted = some lvl ∧
        st'.thinkLevel = lvl) ∨
    (stA.profileIndex < st'.profileIndex ∧ st'.profileIndex < candidates.length ∧
      st'.attempted = [] ∧ st'.thinkLevel = p.thinkLevel) := by
  simp only [promptErrorBranch] at h
  split at h
  · exact absurd h (fun h => Step.noConfusion h)
  · split at h
    · rename_i r pid hmatch
      split at h
      · rcases promptRotateOrFallback_next env p explicitProfileId candidates
            errorText _ st' h with ⟨h1, h2, lvl, hp, h3⟩ | ⟨h1, h2, h3, h4⟩
        · exact Or.inl ⟨h1, h2, some errorText, lvl, hp, h3⟩
        · exact Or.inr ⟨h1, h2, h3, h4⟩
      · rcases promptRotateOrFallback_next env p explicitProfileId candidates
            errorText _ st' h with ⟨h1, h2, lvl, hp, h3⟩ | ⟨h1, h2, h3, h4⟩
        · exact Or.inl ⟨by simpa using h1, by simpa using h2, some errorText, lvl,
            by simpa using hp, h3⟩
        · exact Or.inr ⟨by simpa using h1, h2, h3, h4⟩
    · rcases promptRotateOrFallback_next env p explicitProfileId candidates
          errorText _ st' h with ⟨h1, h2, lvl, hp, h3⟩ | ⟨h1, h2, h3, h4⟩
      · exact Or.inl ⟨h1, h2, some errorText, lvl, hp, h3⟩
      · exact Or.inr ⟨h1, h2, h3, h4⟩

/-- Inversion of `rotateOrFinish` on a retry outcome: only a successful
rotation retries. -/
theorem rotateOrFinish_next (env : RunEnv) (p : RunParams)
    (explicitProfileId : Option String) (candidates : List (Option String))
    (attempt : AttemptResult) (stA st' : LoopState)
    (h : rotateOrFinish env p explicitProfileId candidates attempt stA =
      Step.next st') :
    stA.profileIndex < st'.profileIndex ∧ st'.profileIndex < candidates.length ∧
    st'.attempted = [] ∧ st'.thinkLevel = p.thinkLevel := by
  simp only [rotateOrFinish] at h
  split at h
  · split at h
    · rename_i pid hpid
      have hr := rotateAdvance_next env p explicitProfileId candidates attempt _ st' h
      exact ⟨by simpa using hr.1, hr.2.1, hr.2.2.1, hr.2.2.2⟩
    · exact rotateAdvance_next env p explicitProfileId candidates attempt stA st' h
  · exact absurd h (successReturn_ne_next env p attempt stA st')

/-- Inversion of the completed-attempt branch on a retry outcome: a
thinking-level downgrade on the same candidate or a successful
rotation. -/
theorem completedBranch_next (env : RunEnv) (p : RunParams)
    (explicitProfileId : Option String) (candidates : List (Option String))
    (attempt : AttemptResult) (stA st' : LoopState)
    (h : completedBranch env p explicitProfileId candidates attempt stA =
      Step.next st') :
    (st'.profileIndex = stA.profileIndex ∧ st'.attempted = stA.attempted ∧
      ∃ msg lvl, env.pickFallbackThinkingLevel msg stA.attempted = some lvl ∧
        st'.thinkLevel = lvl) ∨
    (stA.profileIndex < st'.profileIndex ∧ st'.profileIndex < candidates.length ∧
      st'.attempted = [] ∧ st'.thinkLevel = p.thinkLevel) := by
  unfold completedBranch at h
  split at h
  · rename_i lvl hp hab
    injection h with h1
    rw [← h1]
    exact Or.inl ⟨rfl, rfl, attempt.lastAssistant.bind (fun a => a.errorMessage),
      lvl, hp, rfl⟩
  · exact Or.inr
      (rotateOrFinish_next env p explicitProfileId candidates attempt stA st' h)

/-- Inversion of one loop iteration on a retry outcome: relative to the
state at iteration entry, a retry is either a downgrade (same candidate,
attempted set grown by the current level, new level produced by the
downgrade picker on that grown set) or a rotation (strictly larger
candidate index inside the list, cleared attempted set, level reset to
the run's initial level). -/
theorem loopStep_next_cases (env : RunEnv) (p : RunParams)
    (explicitProfileId : Option String) (candidates : List (Option String))
    (st st' : LoopState)
    (h : loopStep env p explicitProfileId candidates st = Step.next st') :
    (st'.profileIndex = st.profileIndex ∧
      st'.attempted = addThinking st.thinkLevel st.attempted ∧
      ∃ msg lvl, env.pickFallbackThinkingLevel msg
          (addThinking st.thinkLevel st.attempted) = some lvl ∧
        st'.thinkLevel = lvl) ∨
    (st.profileIndex < st'.profileIndex ∧ st'.profileIndex < candidates.length ∧
      st'.attempted = [] ∧ st'.thinkLevel = p.thinkLevel) := by
  simp only [loopStep] at h
  split at h
  · rename_i errorText hpe hab
    rcases promptErrorBranch_next env p explicitProfileId candidates _ errorText _
        st' h with ⟨h1, h2, msg, lvl, hp, h3⟩ | ⟨h1, h2, h3, h4⟩
    · exact Or.inl ⟨by simpa using h1, by simpa using h2, msg, lvl,
        by simpa using hp, h3⟩
    · exact Or.inr ⟨by simpa using h1, h2, h3, h4⟩
  · rcases completedBranch_next env p explicitProfileId candidates _ _ st' h with
      ⟨h1, h2, msg, lvl, hp, h3⟩ | ⟨h1, h2, h3, h4⟩
    · exact Or.inl ⟨by simpa using h1, by simpa using h2, msg, lvl,
        by simpa using hp, h3⟩
    · exact Or.inr ⟨by simpa using h1, h2, h3, h4⟩

/-- The retry loop terminates within `loopBound` iterations: with enough
fuel it never runs out, and it performs at most `loopBound` further
attempts.  The only assumption on the (absent) downgrade picker
`pickFallbackThinkingLevel` is the spec's contract that it only picks
levels not yet attempted. -/
theorem runLoop_terminates (env : RunEnv) (p : RunParams)
    (explicitProfileId : Option String) (candidates : List (Option String))
    (hpick : ∀ msg att lvl,
      env.pickFallbackThinkingLevel msg att = some lvl → lvl ∉ att) :
    ∀ (fuel : Nat) (st : LoopState), TInv st →
      st.profileIndex < candidates.length →
      loopBound candidates st ≤ fuel →
      (runLoop env p explicitProfileId candidates fuel st).1 ≠ RunOutcome.fuelOut ∧
      (runLoop env p explicitProfileId candidates fuel st).2.attemptCount ≤
        st.attemptCount + loopBound candidates st := by
  intro fuel
  induction fuel with
  | zero =>
    intro st hinv hplen hfuel
    have h5 := TInv_attempted_le st hinv
    exfalso
    unfold loopBound at hfuel
    omega
  | succ fuel ih =>
    intro st hinv hplen hfuel
    have h5 := TInv_attempted_le st hinv
    have hb1 : 1 ≤ loopBound candidates st := by
      unfold loopBound
      omega
    simp only [runLoop]
    cases hls : loopStep env p explicitProfileId candidates st with
    | done r st' =>
      obtain ⟨-, -, -, -, hcount⟩ :=
        loopStep_shape env p explicitProfileId candidates st
      rw [hls] at hcount
      simp [Step.state] at hcount
      refine ⟨fun hc => RunOutcome.noConfusion hc, ?_⟩
      show st'.attemptCount ≤ st.attemptCount + loopBound candidates st
      omega
    | raise e st' =>
      obtain ⟨-, -, -, -, hcount⟩ :=
        loopStep_shape env p explicitProfileId candidates st
      rw [hls] at hcount
      simp [Step.state] at hcount
      refine ⟨fun hc => RunOutcome.noConfusion hc, ?_⟩
      show st'.attemptCount ≤ st.attemptCount + loopBound candidates st
      omega
    | next st' =>
      obtain ⟨-, -, -, -, hcount⟩ :=
        loopStep_shape env p explicitProfileId candidates st
      rw [hls] at hcount
      simp [Step.state] at hcount
      rcases loopStep_next_cases env p explicitProfileId candidates st st' hls with
        ⟨h1, h2, msg, lvl, hp, h3⟩ | ⟨h1, h2, h3, h4⟩
      · -- downgrade: the attempted set grew by one level on the same candidate
        have hnm : st.thinkLevel ∉ st.attempted := hinv.2
        have hlen2 : st'.attempted.length = st.attempted.length + 1 := by
          rw [h2, addThinking_length st.thinkLevel st.attempted hnm]
        have hinv' : TInv st' := by
          constructor
          · rw [h2]
            exact addThinking_nodup st.thinkLevel st.attempted hinv.1
          · rw [h3, h2]
            exact hpick msg (addThinking st.thinkLevel st.attempted) lvl hp
        have hplen' : st'.profileIndex < candidates.length := by rw [h1]; exact hplen
        have hbound' : loopBound candidates st' + 1 = loopBound candidates st := by
          unfold loopBound
          rw [h1, hlen2]
          omega
        have hfuel' : loopBound candidates st' ≤ fuel := by omega
        obtain ⟨hout, hcnt⟩ := ih st' hinv' hplen' hfuel'
        refine ⟨hout, ?_⟩
        show (runLoop env p explicitProfileId candidates fuel st').2.attemptCount ≤
          st.attemptCount + loopBound candidates st
        omega
      · -- rotation: strictly larger candidate index, cleared attempted set
        have hinv' : TInv st' := by
          unfold TInv
          rw [h3]
          exact ⟨List.nodup_nil, by simp⟩
        have hlen0 : st'.attempted.length = 0 := by rw [h3]; rfl
        have hbound' : loopBound candidates st' + 1 ≤ loopBound candidates st := by
          unfold loopBound
          omega
        have hfuel' : loopBound candidates st' ≤ fuel := by omega
        obtain ⟨hout, hcnt⟩ := ih st' hinv' h2 hfuel'
        refine ⟨hout, ?_⟩
        show (runLoop env p explicitProfileId candidates fuel st').2.attemptCount ≤
          st.attemptCount + loopBound candidates st
        omega

/-! ## Path lemmas for the individual behaviours -/

/-- `successReturn` computed. -/
theorem successReturn_eq (env : RunEnv) (p : RunParams)
    (attempt : AttemptResult) (st : LoopState) :
    successReturn env p attempt st = Step.done
      { payloads := if (env.buildPayloads attempt).isEmpty then none
                    else some (env.buildPayloads attempt)
        meta :=
          { agentMeta :=
              { sessionId := attempt.sessionIdUsed
                provider :=
                  (attempt.lastAssistant.bind (fun a => a.provider)).getD p.provider
                model :=
                  (attempt.lastAssistant.bind (fun a => a.model)).getD p.modelId }
            aborted := some attempt.aborted
            error := none } }
      (match st.lastProfileId with
       | some pid =>
         { st with events :=
             st.events ++ [StoreEvent.markGood pid, StoreEvent.markUsed pid] }
       | none => st) := rfl

theorem promptFallbackOrThrow_ne_done (env : RunEnv) (errorText : String)
    (stB : LoopState) (res : EmbeddedPiRunResult) (st' : LoopState) :
    promptFallbackOrThrow env errorText stB ≠ Step.done res st' := by
  unfold promptFallbackOrThrow
  split
  · exact fun h => Step.noConfusion h
  · exact fun h => Step.noConfusion h

/-- When the current candidate is the last one, `advanceAuthProfile`
reports exhaustion and leaves the state untouched apart from the ghost
rotation counter. -/
theorem advanceAuthProfile_exhausted (env : RunEnv)
    (explicitProfileId : Option String) (initialThinkLevel : ThinkLevel)
    (candidates : List (Option String)) (st : LoopState)
    (h : candidates.length ≤ st.profileIndex + 1) :
    advanceAuthProfile env explicitProfileId initialThinkLevel candidates st =
      (Except.ok false, { st with rotationCalls := st.rotationCalls + 1 }) := by
  unfold advanceAuthProfile
  rw [List.drop_eq_nil_of_le h]
  rfl

/-- When every remaining candidate is unusable, the advance walk
(`run.ts:155-168`) skips them all and reports exhaustion with the state
untouched. -/
theorem advanceOver_allUnusable (env : RunEnv)
    (explicitProfileId : Option String) (initialThinkLevel : ThinkLevel)
    (st : LoopState) :
    ∀ (rest : List (Option String)) (idx : Nat),
      (∀ c ∈ rest, candidateUnusable env explicitProfileId c = true) →
      advanceOver env explicitProfileId initialThinkLevel st rest idx =
        (Except.ok false, st) := by
  intro rest
  induction rest with
  | nil => intro idx h; rfl
  | cons candidate rest ih =>
    intro idx h
    have hc := h candidate (List.mem_cons_self candidate rest)
    have hrest : ∀ c ∈ rest, candidateUnusable env explicitProfileId c = true :=
      fun c hx => h c (List.mem_cons_of_mem candidate hx)
    simp only [candidateUnusable, Bool.and_eq_true, Bool.not_eq_true'] at hc
    obtain ⟨hres, hguard⟩ := hc
    simp only [advanceOver, applyApiKeyInfo]
    cases hk : env.resolveKey candidate with
    | ok info =>
      rw [hk] at hres
      exact absurd hres (by simp)
    | error e =>
      simp only [hk, hguard, Bool.false_eq_true, if_false]
      exact ih (idx + 1) hrest

/-- `advanceAuthProfile` reports exhaustion — no further usable
candidate — and leaves the state untouched (apart from the ghost
rotation counter) whenever every candidate after the current index is
unusable: vacuously when the current candidate is the last, but also
when later candidates exist and all fail to resolve
(`run.ts:158-167`). -/
theorem advanceAuthProfile_noUsable (env : RunEnv)
    (explicitProfileId : Option String) (initialThinkLevel : ThinkLevel)
    (candidates : List (Option String)) (st : LoopState)
    (h : ∀ c ∈ candidates.drop (st.profileIndex + 1),
      candidateUnusable env explicitProfileId c = true) :
    advanceAuthProfile env explicitProfileId initialThinkLevel candidates st =
      (Except.ok false, { st with rotationCalls := st.rotationCalls + 1 }) := by
  unfold advanceAuthProfile
  exact advanceOver_allUnusable env explicitProfileId initialThinkLevel _ _ _ h

/-- When the attempt outcome does not enter the prompt-error branch and
does not qualify for a thinking-level downgrade, the iteration reduces
to `rotateOrFinish` on the bookkept state. -/
theorem loopStep_to_rotateOrFinish (env : RunEnv) (p : RunParams)
    (explicitProfileId : Option String) (candidates : List (Option String))
    (st : LoopState)
    (h2 : (env.attempts st.attemptCount).promptError = none ∨
      (env.attempts st.attemptCount).aborted = true)
    (h3 : (env.attempts st.attemptCount).aborted = true ∨
      env.pickFallbackThinkingLevel
        ((env.attempts st.attemptCount).lastAssistant.bind (fun a => a.errorMessage))
        (addThinking st.thinkLevel st.attempted) = none) :
    loopStep env p explicitProfileId candidates st =
      rotateOrFinish env p explicitProfileId candidates
        (env.attempts st.attemptCount)
        { st with attempted := addThinking st.thinkLevel st.attempted,
                  attemptCount := st.attemptCount + 1,
                  attemptIdx := st.attemptIdx ++ [st.profileIndex] } := by
  simp only [loopStep, completedBranch]
  cases hpe : (env.attempts st.attemptCount).promptError with
  | some e =>
    have hab : (env.attempts st.attemptCount).aborted = true := by
      rcases h2 with h2 | h2
      · rw [h2] at hpe; cases hpe
      · exact h2
    cases hpk : env.pickFallbackThinkingLevel
        ((env.attempts st.attemptCount).lastAssistant.bind (fun a => a.errorMessage))
        (addThinking st.thinkLevel st.attempted) with
    | none => simp [hpe, hab, hpk]
    | some lvl => simp [hpe, hab, hpk]
  | none =>
    cases hab : (env.attempts st.attemptCount).aborted with
    | true =>
      cases hpk : env.pickFallbackThinkingLevel
          ((env.attempts st.attemptCount).lastAssistant.bind (fun a => a.errorMessage))
          (addThinking st.thinkLevel st.attempted) with
      | none => simp [hpe, hab, hpk]
      | some lvl => simp [hpe, hab, hpk]
    | false =>
      have hpk : env.pickFallbackThinkingLevel
          ((env.attempts st.attemptCount).lastAssistant.bind (fun a => a.errorMessage))
          (addThinking st.thinkLevel st.attempted) = none := by
        rcases h3 with h3 | h3
        · rw [h3] at hab; cases hab
        · exact h3
      simp [hpe, hab, hpk]

theorem rotateOrFinish_noRotate (env : RunEnv) (p : RunParams)
    (explicitProfileId : Option String) (candidates : List (Option String))
    (attempt : AttemptResult) (stA : LoopState)
    (h : ((!attempt.aborted &&
      env.isFailoverAssistantError attempt.lastAssistant) ||
      attempt.timedOut) = false) :
    rotateOrFinish env p explicitProfileId candidates attempt stA =
      successReturn env p attempt stA := by
  simp only [rotateOrFinish, h]
  simp

/-- An externally aborted attempt that did not time out reduces the
iteration to the ordinary completion path. -/
theorem loopStep_aborted_eq (env : RunEnv) (p : RunParams)
    (explicitProfileId : Option String) (candidates : List (Option String))
    (st : LoopState)
    (hab : (env.attempts st.attemptCount).aborted = true)
    (hto : (env.attempts st.attemptCount).timedOut = false) :
    loopStep env p explicitProfileId candidates st =
      successReturn env p (env.attempts st.attemptCount)
        { st with attempted := addThinking st.thinkLevel st.attempted,
                  attemptCount := st.attemptCount + 1,
                  attemptIdx := st.attemptIdx ++ [st.profileIndex] } := by
  rw [loopStep_to_rotateOrFinish env p explicitProfileId candidates st
    (Or.inr hab) (Or.inl hab)]
  exact rotateOrFinish_noRotate env p explicitProfileId candidates _ _
    (by rw [hab, hto]; rfl)

/-- A non-aborted prompt error matching the context-overflow signature
produces the structured soft-error return. -/
theorem loopStep_overflow (env : RunEnv) (p : RunParams)
    (explicitProfileId : Option String) (candidates : List (Option String))
    (st : LoopState) (e : String)
    (hpe : (env.attempts st.attemptCount).promptError = some e)
    (hab : (env.attempts st.attemptCount).aborted = false)
    (hov : env.isContextOverflowError e = true) :
    loopStep env p explicitProfileId candidates st = Step.done
      { payloads := some [{ text := some overflowPayloadText, isError := true }]
        meta :=
          { agentMeta :=
              { sessionId := (env.attempts st.attemptCount).sessionIdUsed
                provider := p.provider
                model := p.modelId }
            aborted := none
            error := some
              ((if env.isCompactionFailureError e then
                  SoftErrorKind.compaction_failure
                else SoftErrorKind.context_overflow), e) } }
      { st with attempted := addThinking st.thinkLevel st.attempted,
                attemptCount := st.attemptCount + 1,
                attemptIdx := st.attemptIdx ++ [st.profileIndex] } := by
  simp only [loopStep, promptErrorBranch, hpe, hab, hov]
  simp

/-- The state coming out of `rotateAdvance`: events only grow, the
rotation counter increments once, no further attempt happens inside. -/
theorem rotateAdvance_state (env : RunEnv) (p : RunParams)
    (explicitProfileId : Option String) (candidates : List (Option String))
    (attempt : AttemptResult) (st1 : LoopState) :
    ∃ rest,
      (Step.state (rotateAdvance env p explicitProfileId candidates attempt st1)).events =
        st1.events ++ rest ∧
      (Step.state (rotateAdvance env p explicitProfileId candidates attempt st1)).rotationCalls =
        st1.rotationCalls + 1 ∧
      (Step.state (rotateAdvance env p explicitProfileId candidates attempt st1)).attemptCount =
        st1.attemptCount := by
  simp only [rotateAdvance]
  rcases hadv : advanceAuthProfile env explicitProfileId p.thinkLevel candidates st1
    with ⟨r1, st2⟩
  obtain ⟨hok, hnot⟩ :=
    advanceAuthProfile_shape env explicitProfileId p.thinkLevel candidates st1
  rw [hadv] at hok hnot
  cases r1 with
  | error e =>
    have h2 : st2 = { st1 with rotationCalls := st1.rotationCalls + 1 } :=
      hnot (by simp)
    exact ⟨[], by simp [Step.state, h2], by simp [Step.state, h2],
      by simp [Step.state, h2]⟩
  | ok b =>
    cases b with
    | true =>
      obtain ⟨lp, pi, heq, hlt, hplen⟩ := hok rfl
      have heq2 : st2 = { st1 with lastProfileId := lp, profileIndex := pi, thinkLevel := p.thinkLevel, attempted := [], rotationCalls := st1.rotationCalls + 1 } := heq
      exact ⟨[], by simp [Step.state, heq2], by simp [Step.state, heq2],
        by simp [Step.state, heq2]⟩
    | false =>
      have h2 : st2 = { st1 with rotationCalls := st1.rotationCalls + 1 } :=
        hnot (by simp)
      by_cases hf : p.fallbackConfigured = true
      · exact ⟨[], by simp [Step.state, hf, h2], by simp [Step.state, hf, h2],
          by simp [Step.state, hf, h2]⟩
      · cases hlast : st1.lastProfileId with
        | none =>
          refine ⟨[], ?_, ?_, ?_⟩ <;>
            simp [Step.state, hf, successReturn_eq, h2, hlast]
        | some pid =>
          refine ⟨[StoreEvent.markGood pid, StoreEvent.markUsed pid], ?_, ?_, ?_⟩ <;>
            simp [Step.state, hf, successReturn_eq, h2, hlast]

theorem rotationFailureReason_timeout (env : RunEnv) (attempt : AttemptResult)
    (h : attempt.timedOut = true) :
    rotationFailureReason env attempt = FailoverReason.timeout := by
  simp [rotationFailureReason, h]

theorem rotateOrFinish_rotate_eq (env : RunEnv) (p : RunParams)
    (explicitProfileId : Option String) (candidates : List (Option String))
    (attempt : AttemptResult) (stA : LoopState) (pid : String)
    (htrig : ((!attempt.aborted &&
      env.isFailoverAssistantError attempt.lastAssistant) ||
      attempt.timedOut) = true)
    (hpid : stA.lastProfileId = some pid) :
    rotateOrFinish env p explicitProfileId candidates attempt stA =
      rotateAdvance env p explicitProfileId candidates attempt
        { stA with events := stA.events ++
            [StoreEvent.markFailure pid (rotationFailureReason env attempt)] } := by
  simp only [rotateOrFinish, htrig, hpid]
  simp [rotationFailureReason]

theorem promptRotateOrFallback_ne_done (env : RunEnv) (p : RunParams)
    (explicitProfileId : Option String) (candidates : List (Option String))
    (errorText : String) (stB : LoopState) (res : EmbeddedPiRunResult)
    (st' : LoopState)
    (h : promptRotateOrFallback env p explicitProfileId candidates errorText stB =
      Step.done res st') : False := by
  unfold promptRotateOrFallback at h
  split at h
  · split at h
    · exact Step.noConfusion h
    · exact promptFallbackOrThrow_ne_done env errorText _ res st' h
    · exact Step.noConfusion h
  · exact promptFallbackOrThrow_ne_done env errorText stB res st' h

/-- Inversion of `rotateAdvance` on a finished run: the typed error was
not thrown (no fallback chain), and the completion path marked the
still-current profile good and used. -/
theorem rotateAdvance_done (env : RunEnv) (p : RunParams)
    (explicitProfileId : Option String) (candidates : List (Option String))
    (attempt : AttemptResult) (st1 : LoopState) (res : EmbeddedPiRunResult)
    (st' : LoopState)
    (h : rotateAdvance env p explicitProfileId candidates attempt st1 =
      Step.done res st') :
    res.meta.error = none ∧
    st'.lastProfileId = st1.lastProfileId ∧
    (∀ pid, st1.lastProfileId = some pid →
      st'.events = st1.events ++
        [StoreEvent.markGood pid, StoreEvent.markUsed pid]) := by
  unfold rotateAdvance at h
  obtain ⟨hok, hnot⟩ :=
    advanceAuthProfile_shape env explicitProfileId p.thinkLevel candidates st1
  split at h
  · exact Step.noConfusion h
  · exact Step.noConfusion h
  · rename_i st2 hadv
    rw [hadv] at hnot
    have h2 : st2 = { st1 with rotationCalls := st1.rotationCalls + 1 } :=
      hnot (by simp)
    split at h
    · exact Step.noConfusion h
    · rw [successReturn_eq] at h
      injection h with h1 h2e
      refine ⟨by rw [← h1], ?_, ?_⟩
      · rcases hlp : st2.lastProfileId with _ | pid2 <;> rw [hlp] at h2e
        · rw [← h2e]
          show st2.lastProfileId = st1.lastProfileId
          rw [h2]
        · rw [← h2e]
          show some pid2 = st1.lastProfileId
          rw [← hlp, h2]
      · intro pid hpid
        have hpid2 : st2.lastProfileId = some pid := by rw [h2]; exact hpid
        rw [hpid2] at h2e
        rw [← h2e, h2]

/-- Inversion of a finished iteration that did not take the soft-error
return: the completion path marked the current profile good and used
(possibly after recording a rotation failure). -/
theorem loopStep_done_marks_good (env : RunEnv) (p : RunParams)
    (explicitProfileId : Option String) (candidates : List (Option String))
    (st : LoopState) (res : EmbeddedPiRunResult) (st' : LoopState) (pid : String)
    (h : loopStep env p explicitProfileId candidates st = Step.done res st')
    (hsoft : res.meta.error = none)
    (hpid : st.lastProfileId = some pid) :
    ∃ mid, st'.events = st.events ++ mid ++
      [StoreEvent.markGood pid, StoreEvent.markUsed pid] := by
  simp only [loopStep] at h
  split at h
  · rename_i errorText hpe hab
    simp only [promptErrorBranch] at h
    split at h
    · injection h with h1 h2
      rw [← h1] at hsoft
      simp at hsoft
    · exact absurd h (fun h =>
        promptRotateOrFallback_ne_done env p explicitProfileId candidates
          errorText _ res st' h)
  · simp only [completedBranch] at h
    split at h
    · exact Step.noConfusion h
    · simp only [rotateOrFinish] at h
      split at h
      · split at h
        · rename_i pid2 heq2
          rw [hpid] at heq2
          injection heq2 with hp2
          subst hp2
          obtain ⟨-, -, hmark⟩ := rotateAdvance_done env p explicitProfileId
            candidates _ _ res st' h
          exact ⟨[StoreEvent.markFailure pid
            (rotationFailureReason env (env.attempts st.attemptCount))],
            hmark pid hpid⟩
        · rename_i heq2
          rw [hpid] at heq2
          exact Option.noConfusion heq2
      · rw [successReturn_eq] at h
        injection h with h1 h2e
        simp only [hpid] at h2e
        refine ⟨[], ?_⟩
        rw [← h2e]
        simp

/-! ## Claim theorems -/

/-- C9: on every exit path of a run (`run.ts:64-417`) and of each
attempt (`src/unnamed/part_005:73-475`) — normal result or thrown
error, abort included — the process working directory is restored to
its value from before the run/attempt changed it: both `try/finally`
scopes return the saved `prevCwd` whatever the body does to the cwd and
whether it returns a value or an error. -/
theorem cwd_restored_on_every_exit_path {E A : Type}
    (effectiveWorkspace cwd0 : String)
    (runBody attemptBody : String → String × Except E A) :
    (attemptChdirScope effectiveWorkspace attemptBody cwd0).1 = cwd0 ∧
    (runChdirScope runBody cwd0).1 = cwd0 :=
  ⟨rfl, rfl⟩

/-- C3: a run whose resolved context-window token count is below the
hard minimum raises the typed `FailoverError` built at `run.ts:104-107`
(reason `unknown`, no profile, no status) as the run's outcome, and the
attempt executor is invoked zero times. -/
theorem context_window_block_raises_before_attempts (env : RunEnv)
    (p : RunParams) (profileOrder : List String) (fuel : Nat)
    (h : p.contextTokens < p.hardMinTokens) :
    (runEmbeddedPiAgent env p profileOrder fuel).1 =
      RunOutcome.err (RunError.failover
        { message := "Model context window too small (" ++
            toString p.contextTokens ++ " tokens). Minimum is " ++
            toString p.hardMinTokens ++ "."
          reason := FailoverReason.unknown
          provider := p.provider
          model := p.modelId
          profileId := none
          status := none }) ∧
    (runEmbeddedPiAgent env p profileOrder fuel).2.attemptCount = 0 := by
  have hb : decide (p.contextTokens < p.hardMinTokens) = true := by simpa using h
  simp only [runEmbeddedPiAgent, evaluateContextWindowGuard, hb]
  simp

theorem context_window_block_raises_before_attempts_witness :
    pGuardBlocked.contextTokens < pGuardBlocked.hardMinTokens ∧
    ((runEmbeddedPiAgent envBase pGuardBlocked ["p1"] 3).1 =
      RunOutcome.err (RunError.failover
        { message := "Model context window too small (" ++
            toString pGuardBlocked.contextTokens ++ " tokens). Minimum is " ++
            toString pGuardBlocked.hardMinTokens ++ "."
          reason := FailoverReason.unknown
          provider := pGuardBlocked.provider
          model := pGuardBlocked.modelId
          profileId := none
          status := none }) ∧
      (runEmbeddedPiAgent envBase pGuardBlocked ["p1"] 3).2.attemptCount = 0) :=
  ⟨by decide,
    context_window_block_raises_before_attempts envBase pGuardBlocked ["p1"] 3
      (by decide)⟩

/-- C5: a non-aborted attempt failing with a prompt-level error whose
text matches the context-overflow signature (which per spec subsumes the
compaction-failure signature; the guard at `run.ts:233` is
`isContextOverflowError`) makes the run return a normal result whose
payload is the fixed conversational error text with `isError` set, whose
meta carries a tag in `{context_overflow, compaction_failure}`; nothing
is thrown, no store event or rotation happens, and the attempt is not
retried. -/
theorem context_overflow_prompt_error_soft_return (env : RunEnv)
    (p : RunParams) (explicitProfileId : Option String)
    (candidates : List (Option String)) (fuel : Nat) (st : LoopState)
    (e : String)
    (hpe : (env.attempts st.attemptCount).promptError = some e)
    (hab : (env.attempts st.attemptCount).aborted = false)
    (hov : env.isContextOverflowError e = true) :
    ∃ res st',
      runLoop env p explicitProfileId candidates (fuel + 1) st =
        (RunOutcome.ok res, st') ∧
      res.payloads = some [{ text := some overflowPayloadText, isError := true }] ∧
      (∃ k, res.meta.error = some (k, e) ∧
        (k = SoftErrorKind.context_overflow ∨
          k = SoftErrorKind.compaction_failure)) ∧
      st'.events = st.events ∧
      st'.rotationCalls = st.rotationCalls ∧
      st'.attemptCount = st.attemptCount + 1 := by
  have hstep := loopStep_overflow env p explicitProfileId candidates st e hpe hab hov
  refine ⟨softOverflowResult p (env.attempts st.attemptCount)
      (if env.isCompactionFailureError e then SoftErrorKind.compaction_failure
       else SoftErrorKind.context_overflow) e,
    bookkeepState st, ?_, rfl, ⟨_, rfl, ?_⟩, rfl, rfl, rfl⟩
  · simp only [runLoop]
    rw [hstep]
    rfl
  · by_cases hc : env.isCompactionFailureError e = true
    · rw [if_pos hc]
      exact Or.inr rfl
    · rw [if_neg hc]
      exact Or.inl rfl

theorem context_overflow_prompt_error_soft_return_witness :
    (envOverflow.attempts 0).promptError = some "overflow" ∧
    (envOverflow.attempts 0).aborted = false ∧
    envOverflow.isContextOverflowError "overflow" = true ∧
    (∃ res st',
      runLoop envOverflow pBase none [some "p1"] (0 + 1) stW =
        (RunOutcome.ok res, st') ∧
      res.payloads = some [{ text := some overflowPayloadText, isError := true }] ∧
      (∃ k, res.meta.error = some (k, "overflow") ∧
        (k = SoftErrorKind.context_overflow ∨
          k = SoftErrorKind.compaction_failure)) ∧
      st'.events = stW.events ∧
      st'.rotationCalls = stW.rotationCalls ∧
      st'.attemptCount = stW.attemptCount + 1) :=
  ⟨by decide, by decide, by decide,
    context_overflow_prompt_error_soft_return envOverflow pBase none
      [some "p1"] 0 stW "overflow" (by decide) (by decide) (by decide)⟩

/-- C6: an attempt outcome with `aborted = true` and `timedOut = false`
(external cancellation mid-attempt) terminates the run normally with
`meta.aborted = true`: no error is thrown, no failure is recorded
against any credential (the only store events are the mark-good /
mark-used of the completion path), and no further attempt, rotation, or
downgrade happens. -/
theorem aborted_attempt_returns_normally (env : RunEnv) (p : RunParams)
    (explicitProfileId : Option String) (candidates : List (Option String))
    (fuel : Nat) (st : LoopState)
    (hab : (env.attempts st.attemptCount).aborted = true)
    (hto : (env.attempts st.attemptCount).timedOut = false) :
    ∃ res st',
      runLoop env p explicitProfileId candidates (fuel + 1) st =
        (RunOutcome.ok res, st') ∧
      res.meta.aborted = some true ∧
      res.meta.error = none ∧
      st'.attemptCount = st.attemptCount + 1 ∧
      st'.rotationCalls = st.rotationCalls ∧
      st'.thinkLevel = st.thinkLevel ∧
      st'.events = st.events ++
        (match st.lastProfileId with
         | some pid => [StoreEvent.markGood pid, StoreEvent.markUsed pid]
         | none => []) := by
  have hstep := loopStep_aborted_eq env p explicitProfileId candidates st hab hto
  rw [successReturn_eq] at hstep
  cases hpid : st.lastProfileId with
  | some pid =>
    simp only [hpid] at hstep
    refine ⟨successResult env p (env.attempts st.attemptCount),
      { bookkeepState st with events := st.events ++ [StoreEvent.markGood pid, StoreEvent.markUsed pid] },
      ?_, ?_, rfl, rfl, rfl, rfl, ?_⟩
    · simp only [runLoop]
      rw [hstep]
      simp [bookkeepState, successResult, hpid]
    · show some (env.attempts st.attemptCount).aborted = some true
      rw [hab]
    · simp [hpid, bookkeepState]
  | none =>
    simp only [hpid] at hstep
    refine ⟨successResult env p (env.attempts st.attemptCount),
      bookkeepState st, ?_, ?_, rfl, rfl, rfl, rfl, ?_⟩
    · simp only [runLoop]
      rw [hstep]
      simp [bookkeepState, successResult, hpid]
    · show some (env.attempts st.attemptCount).aborted = some true
      rw [hab]
    · simp [hpid, bookkeepState]

theorem aborted_attempt_returns_normally_witness :
    (envAborted.attempts 0).aborted = true ∧
    (envAborted.attempts 0).timedOut = false ∧
    (∃ res st',
      runLoop envAborted pBase none [some "p1"] (0 + 1) stW =
        (RunOutcome.ok res, st') ∧
      res.meta.aborted = some true ∧
      res.meta.error = none ∧
      st'.attemptCount = stW.attemptCount + 1 ∧
      st'.rotationCalls = stW.rotationCalls ∧
      st'.thinkLevel = stW.thinkLevel ∧
      st'.events = stW.events ++
        (match stW.lastProfileId with
         | some pid => [StoreEvent.markGood pid, StoreEvent.markUsed pid]
         | none => [])) :=
  ⟨by decide, by decide,
    aborted_attempt_returns_normally envAborted pBase none [some "p1"] 0 stW
      (by decide) (by decide)⟩

/-- C4: a completed attempt (no prompt-level error path taken, i.e.
`promptError` absent or the attempt aborted) reporting `timedOut = true`
records a failure with reason `timeout` against the current credential
and invokes rotation, whatever the classifier says about the error text
and whatever the aborted flag is (real attempts always have
`aborted = true` here, see `abortFlags_timedOut_implies_aborted`); the
downgrade alternative is excluded by the aborted flag or an empty pick,
as in any reachable outcome. -/
theorem timed_out_attempt_records_timeout_and_rotates (env : RunEnv)
    (p : RunParams) (explicitProfileId : Option String)
    (candidates : List (Option String)) (st : LoopState) (pid : String)
    (h1 : (env.attempts st.attemptCount).timedOut = true)
    (h2 : (env.attempts st.attemptCount).promptError = none ∨
      (env.attempts st.attemptCount).aborted = true)
    (h3 : (env.attempts st.attemptCount).aborted = true ∨
      env.pickFallbackThinkingLevel
        ((env.attempts st.attemptCount).lastAssistant.bind (fun a => a.errorMessage))
        (addThinking st.thinkLevel st.attempted) = none)
    (h4 : st.lastProfileId = some pid) :
    ∃ rest,
      (Step.state (loopStep env p explicitProfileId candidates st)).events =
        st.events ++ [StoreEvent.markFailure pid FailoverReason.timeout] ++ rest ∧
      (Step.state (loopStep env p explicitProfileId candidates st)).rotationCalls =
        st.rotationCalls + 1 ∧
      (Step.state (loopStep env p explicitProfileId candidates st)).attemptCount =
        st.attemptCount + 1 := by
  rw [loopStep_to_rotateOrFinish env p explicitProfileId candidates st h2 h3]
  generalize hG : ({ st with attempted := addThinking st.thinkLevel st.attempted, attemptCount := st.attemptCount + 1, attemptIdx := st.attemptIdx ++ [st.profileIndex] } : LoopState) = stA
  have hev0 : stA.events = st.events := by rw [← hG]
  have hrot0 : stA.rotationCalls = st.rotationCalls := by rw [← hG]
  have hcnt0 : stA.attemptCount = st.attemptCount + 1 := by rw [← hG]
  have hpid0 : stA.lastProfileId = some pid := by rw [← hG]; exact h4
  rw [rotateOrFinish_rotate_eq env p explicitProfileId candidates
    (env.attempts st.attemptCount) stA pid (by rw [h1]; simp) hpid0]
  obtain ⟨rest, hev, hrot, hcnt⟩ := rotateAdvance_state env p explicitProfileId
    candidates (env.attempts st.attemptCount)
    { stA with events := stA.events ++ [StoreEvent.markFailure pid (rotationFailureReason env (env.attempts st.attemptCount))] }
  refine ⟨rest, hev.trans ?_, hrot.trans ?_, hcnt.trans ?_⟩
  · simp [hev0, rotationFailureReason_timeout env _ h1]
  · simp [hrot0]
  · simp [hcnt0]

theorem timed_out_attempt_records_timeout_and_rotates_witness :
    (envTimeoutAttempt.attempts 0).timedOut = true ∧
    ((envTimeoutAttempt.attempts 0).promptError = none ∨
      (envTimeoutAttempt.attempts 0).aborted = true) ∧
    ((envTimeoutAttempt.attempts 0).aborted = true ∨
      envTimeoutAttempt.pickFallbackThinkingLevel
        ((envTimeoutAttempt.attempts 0).lastAssistant.bind (fun a => a.errorMessage))
        (addThinking stW.thinkLevel stW.attempted) = none) ∧
    stW.lastProfileId = some "p1" ∧
    (∃ rest,
      (Step.state (loopStep envTimeoutAttempt pBase none [some "p1"] stW)).events =
        stW.events ++ [StoreEvent.markFailure "p1" FailoverReason.timeout] ++ rest ∧
      (Step.state (loopStep envTimeoutAttempt pBase none [some "p1"] stW)).rotationCalls =
        stW.rotationCalls + 1 ∧
      (Step.state (loopStep envTimeoutAttempt pBase none [some "p1"] stW)).attemptCount =
        stW.attemptCount + 1) :=
  ⟨by decide, by decide, by decide, by decide,
    timed_out_attempt_records_timeout_and_rotates envTimeoutAttempt pBase none
      [some "p1"] stW "p1" (by decide) (by decide) (by decide) (by decide)⟩

theorem rotateOrFinish_rotate_eq_none (env : RunEnv) (p : RunParams)
    (explicitProfileId : Option String) (candidates : List (Option String))
    (attempt : AttemptResult) (stA : LoopState)
    (htrig : ((!attempt.aborted &&
      env.isFailoverAssistantError attempt.lastAssistant) ||
      attempt.timedOut) = true)
    (hpid : stA.lastProfileId = none) :
    rotateOrFinish env p explicitProfileId candidates attempt stA =
      rotateAdvance env p explicitProfileId candidates attempt stA := by
  simp only [rotateOrFinish, htrig, hpid]
  simp

theorem rotateAdvance_exhausted_fallback (env : RunEnv) (p : RunParams)
    (explicitProfileId : Option String) (candidates : List (Option String))
    (attempt : AttemptResult) (st1 : LoopState)
    (hexh : ∀ c ∈ candidates.drop (st1.profileIndex + 1),
      candidateUnusable env explicitProfileId c = true)
    (hfb : p.fallbackConfigured = true) :
    rotateAdvance env p explicitProfileId candidates attempt st1 =
      Step.raise
        (RunError.failover (exhaustedFailoverError env p attempt st1.lastProfileId))
        { st1 with rotationCalls := st1.rotationCalls + 1 } := by
  simp only [rotateAdvance]
  rw [advanceAuthProfile_noUsable env explicitProfileId p.thinkLevel candidates
    st1 hexh]
  simp [hfb]

/-- C1 (amended): when a rotation-triggering completed-attempt failure
(failover-worthy assistant error or timeout) hits while rotation is
exhausted — every candidate after the current index is unusable, which
covers both the current candidate being the last one and later
candidates existing but all failing to resolve, skipped by
`run.ts:158-167` — and a fallback model chain is configured, the
iteration raises the typed `FailoverError` carrying the classified
reason, provider, model, the last-tried profile id, and the derivable
status code (`run.ts:337-366`).  Without a fallback chain the code
instead falls through to a normal return — see the counterexample
theorem. -/
theorem exhausted_rotation_with_fallback_raises_typed_error (env : RunEnv)
    (p : RunParams) (explicitProfileId : Option String)
    (candidates : List (Option String)) (st : LoopState)
    (htrig : ((!(env.attempts st.attemptCount).aborted &&
      env.isFailoverAssistantError (env.attempts st.attemptCount).lastAssistant) ||
      (env.attempts st.attemptCount).timedOut) = true)
    (h2 : (env.attempts st.attemptCount).promptError = none ∨
      (env.attempts st.attemptCount).aborted = true)
    (h3 : (env.attempts st.attemptCount).aborted = true ∨
      env.pickFallbackThinkingLevel
        ((env.attempts st.attemptCount).lastAssistant.bind (fun a => a.errorMessage))
        (addThinking st.thinkLevel st.attempted) = none)
    (hexh : ∀ c ∈ candidates.drop (st.profileIndex + 1),
      candidateUnusable env explicitProfileId c = true)
    (hfb : p.fallbackConfigured = true) :
    ∃ fe st',
      loopStep env p explicitProfileId candidates st =
        Step.raise (RunError.failover fe) st' ∧
      fe.reason = (env.classifyFailoverReason
        (((env.attempts st.attemptCount).lastAssistant.bind
          (fun a => a.errorMessage)).getD "")).getD FailoverReason.unknown ∧
      fe.provider = p.provider ∧
      fe.model = p.modelId ∧
      fe.profileId = st.lastProfileId ∧
      fe.status = (match env.resolveFailoverStatus fe.reason with
                   | some s => some s
                   | none => if env.isTimeoutErrorMessage fe.message then some 408
                             else none) := by
  rw [loopStep_to_rotateOrFinish env p explicitProfileId candidates st h2 h3]
  generalize hG : ({ st with attempted := addThinking st.thinkLevel st.attempted, attemptCount := st.attemptCount + 1, attemptIdx := st.attemptIdx ++ [st.profileIndex] } : LoopState) = stA
  have hpi0 : stA.profileIndex = st.profileIndex := by rw [← hG]
  have hlast0 : stA.lastProfileId = st.lastProfileId := by rw [← hG]
  cases h4 : st.lastProfileId with
  | some pid =>
    rw [rotateOrFinish_rotate_eq env p explicitProfileId candidates
      (env.attempts st.attemptCount) stA pid htrig (hlast0.trans h4)]
    rw [rotateAdvance_exhausted_fallback env p explicitProfileId candidates
      (env.attempts st.attemptCount) _ (by simpa [hpi0] using hexh) hfb]
    refine ⟨_, _, rfl, rfl, rfl, rfl, ?_, rfl⟩
    simp [exhaustedFailoverError, hlast0, h4]
  | none =>
    rw [rotateOrFinish_rotate_eq_none env p explicitProfileId candidates
      (env.attempts st.attemptCount) stA htrig (hlast0.trans h4)]
    rw [rotateAdvance_exhausted_fallback env p explicitProfileId candidates
      (env.attempts st.attemptCount) stA (by simpa [hpi0] using hexh) hfb]
    refine ⟨_, _, rfl, rfl, rfl, rfl, ?_, rfl⟩
    simp [exhaustedFailoverError, hlast0, h4]

theorem exhausted_rotation_with_fallback_raises_typed_error_witness :
    ((!(envSecondKeyMissing.attempts 0).aborted &&
      envSecondKeyMissing.isFailoverAssistantError
        (envSecondKeyMissing.attempts 0).lastAssistant) ||
      (envSecondKeyMissing.attempts 0).timedOut) = true ∧
    ((envSecondKeyMissing.attempts 0).promptError = none ∨
      (envSecondKeyMissing.attempts 0).aborted = true) ∧
    ((envSecondKeyMissing.attempts 0).aborted = true ∨
      envSecondKeyMissing.pickFallbackThinkingLevel
        ((envSecondKeyMissing.attempts 0).lastAssistant.bind (fun a => a.errorMessage))
        (addThinking stW.thinkLevel stW.attempted) = none) ∧
    (∀ c ∈ ([some "p1", some "p2"] : List (Option String)).drop
        (stW.profileIndex + 1),
      candidateUnusable envSecondKeyMissing none c = true) ∧
    pFallback.fallbackConfigured = true ∧
    (∃ fe st',
      loopStep envSecondKeyMissing pFallback none [some "p1", some "p2"] stW =
        Step.raise (RunError.failover fe) st' ∧
      fe.reason = (envSecondKeyMissing.classifyFailoverReason
        (((envSecondKeyMissing.attempts 0).lastAssistant.bind
          (fun a => a.errorMessage)).getD "")).getD FailoverReason.unknown ∧
      fe.provider = pFallback.provider ∧
      fe.model = pFallback.modelId ∧
      fe.profileId = stW.lastProfileId ∧
      fe.status = (match envSecondKeyMissing.resolveFailoverStatus fe.reason with
                   | some s => some s
                   | none => if envSecondKeyMissing.isTimeoutErrorMessage fe.message
                             then some 408 else none)) :=
  ⟨by decide, by decide, by decide, by decide, by decide,
    exhausted_rotation_with_fallback_raises_typed_error envSecondKeyMissing
      pFallback none [some "p1", some "p2"] stW (by decide) (by decide)
      (by decide) (by decide) (by decide)⟩

/-- C1 (counterexample): a full run in which the only candidate fails
with a rotation-triggering timeout and no fallback model chain is
configured does not raise the typed error: it returns a normal result
(after recording the failure), refuting the claim that the
`FailoverError` is the run's outcome even without a fallback chain. -/
theorem exhausted_rotation_no_fallback_returns_ok :
    (envTimeoutAttempt.attempts 0).timedOut = true ∧
    pBase.fallbackConfigured = false ∧
    StoreEvent.markFailure "p1" FailoverReason.timeout ∈
      (runEmbeddedPiAgent envTimeoutAttempt pBase ["p1"] 3).2.events ∧
    (runEmbeddedPiAgent envTimeoutAttempt pBase ["p1"] 3).1.isOk = true := by
  decide

/-- C10 (counterexample): a run that returns the normal (not thrown)
soft-error result while a profile id is resolved does not mark that
profile good or used, refuting the unrestricted claim that every run
returning a normal result with a resolved profile id marks it
good/used. -/
theorem soft_error_run_does_not_mark_profile_good :
    (runEmbeddedPiAgent envOverflow pBase ["p1"] 3).1.isOk = true ∧
    (runEmbeddedPiAgent envOverflow pBase ["p1"] 3).2.lastProfileId = some "p1" ∧
    StoreEvent.markGood "p1" ∉
      (runEmbeddedPiAgent envOverflow pBase ["p1"] 3).2.events ∧
    StoreEvent.markUsed "p1" ∉
      (runEmbeddedPiAgent envOverflow pBase ["p1"] 3).2.events := by
  decide

/-- C2 (amended): for a run started with an explicitly pinned auth
profile (candidate order reduced to that profile, per spec 4.2), the
candidate index never moves past the pinned candidate — every attempt
uses candidate 0 — and a credential *resolution* failure for the pinned
profile propagates to the caller immediately with the original error,
before any attempt and with the store untouched.  The claim's stronger
reading that *any* failure under the pinned profile propagates with the
original error is refuted by the counterexample theorem: a
failover-worthy attempt failure under a pinned profile without a
fallback chain makes the run return a normal result. -/
theorem pinned_profile_no_rotation (env : RunEnv) (p : RunParams)
    (pid : String) (fuel : Nat)
    (hpin : p.authProfileId = some pid)
    (htrim : jsTrim pid = pid)
    (hguard : p.hardMinTokens ≤ p.contextTokens) :
    (∀ i ∈ (runEmbeddedPiAgent env p [pid] fuel).2.attemptIdx, i = 0) ∧
    (∀ e, env.resolveKey (some pid) = Except.error e →
      runEmbeddedPiAgent env p [pid] fuel =
        (RunOutcome.err (RunError.credential e),
          { thinkLevel := p.thinkLevel })) := by
  constructor
  · rcases runEmbeddedPiAgent_split env p [pid] fuel with
      ⟨st1, hinit, hrun⟩ | ⟨e, -, hinit⟩
    · have hidx : IdxInv (profileCandidates [pid]) st1 := by
        obtain ⟨h1, -, -, -, h5⟩ := hinit
        exact ⟨by rw [h1]; exact List.chain'_nil, by rw [h1]; simp, h5⟩
      have h2 := runLoop_IdxInv env p (p.authProfileId.map jsTrim)
        (profileCandidates [pid]) fuel st1 hidx
      intro i hi
      rw [hrun] at hi
      obtain ⟨-, hle, hlt⟩ := h2
      have h3 := hle i hi
      have hlen : (profileCandidates [pid]).length = 1 := rfl
      omega
    · intro i hi
      rw [hinit.1] at hi
      simp at hi
  · intro e hres
    have hblock : (evaluateContextWindowGuard p.contextTokens
        p.warnBelowTokens p.hardMinTokens).shouldBlock = false := by
      simp only [evaluateContextWindowGuard]
      simp
      omega
    simp only [runEmbeddedPiAgent, hpin, Option.map_some, htrim, hblock,
      Bool.false_eq_true, if_false]
    rw [if_neg (by simp [htrim])]
    have hcand : (profileCandidates [pid]).getD 0 none = some pid := rfl
    rw [hcand]
    simp only [applyApiKeyInfo, hres]
    rw [if_pos (by simp [htrim])]

theorem pinned_profile_no_rotation_witness :
    runEmbeddedPiAgent envFailKey pPinned ["p1"] 3 =
      (RunOutcome.err (RunError.credential "no credential"),
        { thinkLevel := pPinned.thinkLevel }) :=
  (pinned_profile_no_rotation envFailKey pPinned "p1" 3 (by decide) (by decide)
    (by decide)).2 "no credential" rfl

/-- C2 (counterexample): a run with an explicitly pinned auth profile
whose attempt fails with a failover-worthy (rate-limited) assistant
error does not propagate that failure to the caller: with no fallback
chain configured, the run returns a normal result (after recording a
failure and then marking the same profile good), refuting the claim
that any failure under the pinned profile propagates immediately with
the original error. -/
theorem pinned_profile_attempt_failure_returns_ok :
    pPinned.authProfileId = some "p1" ∧
    envRateLimited.isFailoverAssistantError
      (envRateLimited.attempts 0).lastAssistant = true ∧
    StoreEvent.markFailure "p1" FailoverReason.rate_limit ∈
      (runEmbeddedPiAgent envRateLimited pPinned ["p1"] 3).2.events ∧
    (runEmbeddedPiAgent envRateLimited pPinned ["p1"] 3).1.isOk = true := by
  decide

/-- C7: in a run without an explicitly pinned profile, the per-attempt
candidate-index trace is a prefix-order traversal of the configured
candidate list: indices never decrease from one attempt to the next,
every index stays inside the candidate list, and the run never returns
to a candidate it has moved past — occurrences of the same index are
contiguous, so no candidate is revisited. -/
theorem unpinned_run_traverses_candidates_in_order (env : RunEnv)
    (p : RunParams) (profileOrder : List String) (fuel : Nat)
    (hpin : p.authProfileId = none) :
    List.Chain' (· ≤ ·)
      (runEmbeddedPiAgent env p profileOrder fuel).2.attemptIdx ∧
    (∀ i ∈ (runEmbeddedPiAgent env p profileOrder fuel).2.attemptIdx,
      i < (profileCandidates profileOrder).length) ∧
    (∀ a b c : Fin (runEmbeddedPiAgent env p profileOrder fuel).2.attemptIdx.length,
      a ≤ b → b ≤ c →
      (runEmbeddedPiAgent env p profileOrder fuel).2.attemptIdx.get a =
        (runEmbeddedPiAgent env p profileOrder fuel).2.attemptIdx.get c →
      (runEmbeddedPiAgent env p profileOrder fuel).2.attemptIdx.get b =
        (runEmbeddedPiAgent env p profileOrder fuel).2.attemptIdx.get a) := by
  have hinv : IdxInv (profileCandidates profileOrder)
      (runEmbeddedPiAgent env p profileOrder fuel).2 := by
    rcases runEmbeddedPiAgent_split env p profileOrder fuel with
      ⟨st1, hinit, hrun⟩ | ⟨e, -, hinit⟩
    · rw [hrun]
      apply runLoop_IdxInv
      obtain ⟨h1, -, -, -, h5⟩ := hinit
      exact ⟨by rw [h1]; exact List.chain'_nil, by rw [h1]; simp, h5⟩
    · obtain ⟨h1, -, -, -, h5⟩ := hinit
      exact ⟨by rw [h1]; exact List.chain'_nil, by rw [h1]; simp, h5⟩
  obtain ⟨hchain, hle, hlt⟩ := hinv
  refine ⟨hchain, fun i hi => lt_of_le_of_lt (hle i hi) hlt, ?_⟩
  have hpw := (List.chain'_iff_pairwise).1 hchain
  have hget := List.pairwise_iff_get.1 hpw
  intro a b c hab hbc hac
  rcases eq_or_lt_of_le hab with heq | hlt1
  · rw [← heq]
  · rcases eq_or_lt_of_le hbc with heq | hlt2
    · rw [heq, hac]
    · exact le_antisymm (by rw [hac]; exact hget b c hlt2) (hget a b hlt1)

theorem unpinned_run_traverses_candidates_in_order_witness :
    List.Chain' (· ≤ ·)
      (runEmbeddedPiAgent envBase pBase ["p1", "p2"] 3).2.attemptIdx :=
  (unpinned_run_traverses_candidates_in_order envBase pBase ["p1", "p2"] 3
    (by decide)).1

/-- C8: every run performs finitely many attempts.  Under the spec's
contract on the (absent) downgrade picker — it only returns thinking
levels not yet in the attempted set — a fuel budget of six levels per
configured candidate is never exhausted, and the total number of
attempts performed by the run is at most six (the ladder length) times
the number of candidates. -/
theorem retry_loop_terminates_within_bound (env : RunEnv) (p : RunParams)
    (profileOrder : List String) (fuel : Nat)
    (hpick : ∀ msg att lvl,
      env.pickFallbackThinkingLevel msg att = some lvl → lvl ∉ att)
    (hfuel : 6 * (profileCandidates profileOrder).length ≤ fuel) :
    (runEmbeddedPiAgent env p profileOrder fuel).1 ≠ RunOutcome.fuelOut ∧
    (runEmbeddedPiAgent env p profileOrder fuel).2.attemptCount ≤
      6 * (profileCandidates profileOrder).length := by
  rcases runEmbeddedPiAgent_split env p profileOrder fuel with
    ⟨st1, hinit, hrun⟩ | ⟨e, herr, hinit⟩
  · obtain ⟨-, -, h3, h4, h5⟩ := hinit
    have hTI : TInv st1 := ⟨by rw [h4]; exact List.nodup_nil, by rw [h4]; simp⟩
    have hb : loopBound (profileCandidates profileOrder) st1 ≤ fuel := by
      unfold loopBound
      omega
    obtain ⟨hout, hcnt⟩ := runLoop_terminates env p (p.authProfileId.map jsTrim)
      (profileCandidates profileOrder) hpick fuel st1 hTI h5 hb
    rw [hrun]
    refine ⟨hout, ?_⟩
    have hlb : loopBound (profileCandidates profileOrder) st1 ≤
        6 * (profileCandidates profileOrder).length := by
      unfold loopBound
      omega
    omega
  · refine ⟨?_, ?_⟩
    · rw [herr]
      exact fun hc => RunOutcome.noConfusion hc
    · rw [hinit.2.2.1]
      omega

theorem retry_loop_terminates_within_bound_witness :
    (runEmbeddedPiAgent envBase pBase ["p1", "p2"] 12).1 ≠
      RunOutcome.fuelOut ∧
    (runEmbeddedPiAgent envBase pBase ["p1", "p2"] 12).2.attemptCount ≤
      6 * (profileCandidates ["p1", "p2"]).length :=
  retry_loop_terminates_within_bound envBase pBase ["p1", "p2"] 12
    (fun _ _ _ h => Option.noConfusion h) (by decide)

theorem foldl_abortRun_aborted (cs : List Bool) :
    ∀ f : AbortFlags, f.aborted = true →
      (List.foldl abortRun f cs).aborted = true := by
  induction cs with
  | nil => exact fun f h => h
  | cons c cs ih => exact fun f h => ih (abortRun f c) rfl

/-- `abortRun` (`src/unnamed/part_005:326-331`) is the only writer of the
attempt's abort flags: whatever sequence of abort invocations an attempt
sees, if it ends with `timedOut = true` then it also ends with
`aborted = true` — a timeout always fires the abort path. -/
theorem abortFlags_timedOut_implies_aborted (signalAborted : Bool)
    (calls : List Bool)
    (h : (List.foldl abortRun (initialAbortFlags signalAborted)
        calls).timedOut = true) :
    (List.foldl abortRun (initialAbortFlags signalAborted)
      calls).aborted = true := by
  cases calls with
  | nil => exact absurd h (by simp [initialAbortFlags])
  | cons c cs => exact foldl_abortRun_aborted cs (abortRun _ c) rfl

/-- A finished iteration that did not take the soft-error return leaves
the resolved profile id unchanged. -/
theorem loopStep_done_lastProfileId (env : RunEnv) (p : RunParams)
    (explicitProfileId : Option String) (candidates : List (Option String))
    (st : LoopState) (res : EmbeddedPiRunResult) (st' : LoopState)
    (h : loopStep env p explicitProfileId candidates st = Step.done res st')
    (hsoft : res.meta.error = none) :
    st'.lastProfileId = st.lastProfileId := by
  simp only [loopStep] at h
  split at h
  · rename_i errorText hpe hab
    simp only [promptErrorBranch] at h
    split at h
    · injection h with h1 h2
      rw [← h1] at hsoft
      simp at hsoft
    · exact absurd h (fun h =>
        promptRotateOrFallback_ne_done env p explicitProfileId candidates
          errorText _ res st' h)
  · simp only [completedBranch] at h
    split at h
    · exact Step.noConfusion h
    · simp only [rotateOrFinish] at h
      split at h
      · split at h
        · obtain ⟨-, hlp, -⟩ := rotateAdvance_done env p explicitProfileId
            candidates _ _ res st' h
          exact hlp
        · obtain ⟨-, hlp, -⟩ := rotateAdvance_done env p explicitProfileId
            candidates _ _ res st' h
          exact hlp
      · rw [successReturn_eq] at h
        injection h with h1 h2e
        rcases hlp : st.lastProfileId with _ | pid <;> rw [hlp] at h2e
        · rw [← h2e]
        · rw [← h2e]

theorem runLoop_ok_marks_good (env : RunEnv) (p : RunParams)
    (explicitProfileId : Option String) (candidates : List (Option String)) :
    ∀ (fuel : Nat) (st : LoopState) (res : EmbeddedPiRunResult),
      (runLoop env p explicitProfileId candidates fuel st).1 =
        RunOutcome.ok res →
      res.meta.error = none →
      ∀ pid, (runLoop env p explicitProfileId candidates fuel
          st).2.lastProfileId = some pid →
        StoreEvent.markGood pid ∈
          (runLoop env p explicitProfileId candidates fuel st).2.events ∧
        StoreEvent.markUsed pid ∈
          (runLoop env p explicitProfileId candidates fuel st).2.events := by
  intro fuel
  induction fuel with
  | zero =>
    intro st res h
    exact absurd h (by simp [runLoop])
  | succ fuel ih =>
    intro st res h hsoft pid hpid
    rw [runLoop] at h hpid ⊢
    cases hls : loopStep env p explicitProfileId candidates st with
    | next st' =>
      rw [hls] at h hpid
      exact ih st' res h hsoft pid hpid
    | done r st' =>
      rw [hls] at h hpid
      have h1 : RunOutcome.ok r = RunOutcome.ok res := h
      injection h1 with h1
      rw [← h1] at hsoft
      have hpid2 : st'.lastProfileId = some pid := hpid
      have hlp := loopStep_done_lastProfileId env p explicitProfileId
        candidates st r st' hls hsoft
      obtain ⟨mid, hev⟩ := loopStep_done_marks_good env p explicitProfileId
        candidates st r st' pid hls hsoft (by rw [← hlp]; exact hpid2)
      show StoreEvent.markGood pid ∈ st'.events ∧
        StoreEvent.markUsed pid ∈ st'.events
      rw [hev]
      simp
    | raise e st' =>
      rw [hls] at h
      have h1 : RunOutcome.err e = RunOutcome.ok res := h
      exact RunOutcome.noConfusion h1

/-- C10 (amended): every run of `runEmbeddedPiAgent` that returns a
normal result other than the structured soft-error payload
(`res.meta.error = none`) while a profile id is resolved marks that
profile good and used in the external store — including runs whose
final attempt was externally aborted (`aborted = true`), as the witness
shows.  The restriction to non-soft-error results is necessary: the
soft-error return path yields a normal result without marking the
profile, see the counterexample theorem. -/
theorem normal_result_marks_profile_good (env : RunEnv) (p : RunParams)
    (profileOrder : List String) (fuel : Nat) (res : EmbeddedPiRunResult)
    (pid : String)
    (h : (runEmbeddedPiAgent env p profileOrder fuel).1 = RunOutcome.ok res)
    (hsoft : res.meta.error = none)
    (hpid : (runEmbeddedPiAgent env p profileOrder fuel).2.lastProfileId =
      some pid) :
    StoreEvent.markGood pid ∈
      (runEmbeddedPiAgent env p profileOrder fuel).2.events ∧
    StoreEvent.markUsed pid ∈
      (runEmbeddedPiAgent env p profileOrder fuel).2.events := by
  rcases runEmbeddedPiAgent_split env p profileOrder fuel with
    ⟨st1, -, hrun⟩ | ⟨e, herr, -⟩
  · rw [hrun] at h hpid ⊢
    exact runLoop_ok_marks_good env p (p.authProfileId.map jsTrim)
      (profileCandidates profileOrder) fuel st1 res h hsoft pid hpid
  · rw [herr] at h
    exact RunOutcome.noConfusion h

theorem normal_result_marks_profile_good_witness :
    StoreEvent.markGood "p1" ∈
      (runEmbeddedPiAgent envAborted pBase ["p1"] 3).2.events ∧
    StoreEvent.markUsed "p1" ∈
      (runEmbeddedPiAgent envAborted pBase ["p1"] 3).2.events :=
  normal_result_marks_profile_good envAborted pBase ["p1"] 3 resC10W "p1"
    (by decide) (by decide) (by decide)
